import Mathlib

/-!
Verification development for the Nexus compiler front/mid pipeline
(lexer, parser primitives, semantic analyzer, AST-to-IR code generator,
optimizer).  Every definition below is a shallow embedding of the
corresponding C++ function from the repository sources; stateful C++
methods become explicit state passing, C++ while-loops become
fuel-indexed structural recursion (the fuel is chosen at loop entry as
an upper bound on the number of iterations, which is bounded by the
number of remaining input characters, so behaviour coincides with the
source), and operations that would dereference a null pointer in C++
return none.
-/

namespace Nexus

/-! ## Tokens (token.h) -/

/-- TokenType enum from token.h. -/
inductive TokenType where
  | LET | CONST | FN | ASYNC | AWAIT | COROUTINE | STRUCT | PROCESS | CLASS | INTERFACE
  | IF | ELSE | FOR | WHILE | RETURN | BREAK | CONTINUE | IMPORT | EXPORT | USE
  | NAMESPACE | CONSTRUCTOR | THIS | NEW | YIELD | TRY | CATCH | FINALLY
  | NULL_ | TRUE_ | FALSE_ | TYPEOF | INSTANCEOF | AS
  | PLUS | MINUS | MULTIPLY | DIVIDE | MODULO | PLUS_PLUS | MINUS_MINUS
  | ASSIGN | PLUS_ASSIGN | MINUS_ASSIGN | MULTIPLY_ASSIGN | DIVIDE_ASSIGN | MODULO_ASSIGN
  | EQUAL | NOT_EQUAL | LESS | LESS_EQUAL | GREATER | GREATER_EQUAL
  | AND | OR | NOT
  | BIT_AND | BIT_OR | BIT_XOR | BIT_NOT
  | LEFT_SHIFT | RIGHT_SHIFT | UNSIGNED_RIGHT_SHIFT
  | LEFT_SHIFT_ASSIGN | RIGHT_SHIFT_ASSIGN | UNSIGNED_RIGHT_SHIFT_ASSIGN
  | BIT_AND_ASSIGN | BIT_OR_ASSIGN | BIT_XOR_ASSIGN
  | SEMICOLON | COLON | COMMA | DOT
  | LEFT_PAREN | RIGHT_PAREN | LEFT_BRACE | RIGHT_BRACE | LEFT_BRACKET | RIGHT_BRACKET
  | ARROW | DOUBLE_COLON
  | IDENTIFIER | INTEGER | FLOAT | STRING | CHARACTER
  | END_OF_FILE | ERROR
  deriving DecidableEq, Repr

/-- Token record from token.h: kind, lexeme and source position.
Line and column are C++ ints, so we use Int. -/
structure Token where
  type : TokenType
  lexeme : String
  line : Int
  column : Int
  deriving DecidableEq, Repr

/-! ## Lexer (lexer.cpp)

The C++ lexer mutates a byte cursor over the source string.  We embed
its state as a record and each method as a state-passing function.
std::string::operator[] returns the NUL character at index size(), which
charAt models with getD. -/

/-- Reading a character of the source; models std::string::operator[]
(which yields NUL at the end position). -/
def charAt (s : List Char) (i : Nat) : Char := s.getD i (Char.ofNat 0)

/-- First-match association lookup; models map::find on the keyword
table (keys are pairwise distinct, so first match is the match). -/
def mapFind {α : Type} (m : List (String × α)) (k : String) : Option α :=
  match m with
  | [] => none
  | (k', v) :: rest => if k' = k then some v else mapFind rest k

/-- Insert-or-overwrite; models map::operator[] assignment. -/
def mapInsert {α : Type} (m : List (String × α)) (k : String) (v : α) : List (String × α) :=
  match m with
  | [] => [(k, v)]
  | (k', v') :: rest => if k' = k then (k, v) :: rest else (k', v') :: mapInsert rest k v

/-- The keyword table built by Lexer::initKeywords. -/
def keywords : List (String × TokenType) :=
  [("let", .LET), ("const", .CONST), ("fn", .FN), ("async", .ASYNC), ("await", .AWAIT),
   ("coroutine", .COROUTINE), ("struct", .STRUCT), ("process", .PROCESS), ("class", .CLASS),
   ("interface", .INTERFACE), ("if", .IF), ("else", .ELSE), ("for", .FOR), ("while", .WHILE),
   ("return", .RETURN), ("break", .BREAK), ("continue", .CONTINUE), ("import", .IMPORT),
   ("export", .EXPORT), ("use", .USE), ("namespace", .NAMESPACE), ("constructor", .CONSTRUCTOR),
   ("this", .THIS), ("new", .NEW), ("yield", .YIELD), ("try", .TRY), ("catch", .CATCH),
   ("finally", .FINALLY), ("null", .NULL_), ("true", .TRUE_), ("false", .FALSE_),
   ("typeof", .TYPEOF), ("instanceof", .INSTANCEOF), ("as", .AS)]

/-- Lexer state: source text, byte cursor, line/column bookkeeping and
the one-slot pushback (Lexer::ungotToken). -/
structure Lexer where
  source : List Char
  position : Nat
  line : Int
  column : Int
  ungotToken : Option Token
  deriving DecidableEq, Repr

/-- Lexer constructor. -/
def mkLexer (source : String) : Lexer :=
  { source := source.data, position := 0, line := 1, column := 1, ungotToken := none }

/-- Lexer::isAtEnd. -/
def Lexer.isAtEnd (l : Lexer) : Bool := l.source.length ≤ l.position

/-- Lexer::peek. -/
def Lexer.peek (l : Lexer) : Char :=
  if l.isAtEnd then Char.ofNat 0 else charAt l.source l.position

/-- Lexer::advance: consume one character, maintaining line/column. -/
def Lexer.advance (l : Lexer) : Char × Lexer :=
  let c := charAt l.source l.position
  let l' := { l with position := l.position + 1, column := l.column + 1 }
  if c = '\n' then (c, { l' with line := l'.line + 1, column := 1 }) else (c, l')

/-- Lexer::match (renamed: match is a Lean keyword): conditionally
consume the expected character. -/
def Lexer.matchChar (l : Lexer) (expected : Char) : Bool × Lexer :=
  if l.isAtEnd ∨ charAt l.source l.position ≠ expected then (false, l)
  else (true, { l with position := l.position + 1, column := l.column + 1 })

/-- Lexer::makeToken: the token column is computed by backing up over
the lexeme. -/
def Lexer.makeToken (l : Lexer) (type : TokenType) (lexeme : String) : Token :=
  { type := type, lexeme := lexeme, line := l.line, column := l.column - lexeme.length }

/-- Lexer::errorToken. -/
def Lexer.errorToken (l : Lexer) (message : String) : Token :=
  { type := .ERROR, lexeme := message, line := l.line, column := l.column }

/-- isdigit from cctype, as used by the lexer (ASCII digits). -/
def isdigitChar (c : Char) : Bool := '0' ≤ c ∧ c ≤ '9'

/-- isalnum from cctype restricted to ASCII, as used on identifier
continuation characters. -/
def isalnumChar (c : Char) : Bool :=
  ('0' ≤ c ∧ c ≤ '9') ∨ ('a' ≤ c ∧ c ≤ 'z') ∨ ('A' ≤ c ∧ c ≤ 'Z')

/-- substr over the char-list source, mirroring
source.substr(start, len). -/
def substr (s : List Char) (start len : Nat) : String :=
  ((s.drop start).take len).asString

/-- Loop body of Lexer::skipComment (while not at end and not at a
newline, advance).  Each iteration consumes one character, so the fuel
chosen in skipComment is an upper bound on the iteration count. -/
def Lexer.skipCommentGo : Nat → Lexer → Lexer
  | 0, l => l
  | fuel + 1, l =>
    if ¬l.isAtEnd ∧ l.peek ≠ '\n' then Lexer.skipCommentGo fuel (l.advance).2 else l

/-- Lexer::skipComment. -/
def Lexer.skipComment (l : Lexer) : Lexer :=
  Lexer.skipCommentGo (l.source.length + 1 - l.position) l

/-- Inner loop of the block-comment branch of Lexer::skipWhitespace:
while not at end and not looking at the closing star-slash, bump the
line counter on newlines (the C++ does this in addition to the bump
inside advance) and advance. -/
def Lexer.blockCommentGo : Nat → Lexer → Lexer
  | 0, l => l
  | fuel + 1, l =>
    if ¬l.isAtEnd ∧ ¬(l.peek = '*' ∧ charAt l.source (l.position + 1) = '/') then
      let l' := if l.peek = '\n' then { l with line := l.line + 1, column := 1 } else l
      Lexer.blockCommentGo fuel (l'.advance).2
    else l

/-- Loop body of Lexer::skipWhitespace.  NOTE (faithful to the source):
in the slash case the C++ tests peek() twice without advancing, so the
first test peek() == slash is always true whenever the dispatched
character is a slash; the block-comment branch is unreachable. -/
def Lexer.skipWhitespaceGo : Nat → Lexer → Lexer
  | 0, l => l
  | fuel + 1, l =>
    if l.isAtEnd then l
    else
      let c := l.peek
      if c = ' ' ∨ c = '\t' ∨ c = '\r' ∨ c = '\n' then
        Lexer.skipWhitespaceGo fuel (l.advance).2
      else if c = '/' then
        if l.peek = '/' then
          Lexer.skipWhitespaceGo fuel l.skipComment
        else if l.peek = '*' then
          let l₁ := ((l.advance).2.advance).2
          let l₂ := Lexer.blockCommentGo (l₁.source.length + 1 - l₁.position) l₁
          let l₃ := if ¬l₂.isAtEnd then ((l₂.advance).2.advance).2 else l₂
          Lexer.skipWhitespaceGo fuel l₃
        else l
      else l

/-- Lexer::skipWhitespace. -/
def Lexer.skipWhitespace (l : Lexer) : Lexer :=
  Lexer.skipWhitespaceGo (l.source.length + 1 - l.position) l

/-- Identifier continuation loop of Lexer::identifier. -/
def Lexer.identGo : Nat → Lexer → Lexer
  | 0, l => l
  | fuel + 1, l =>
    if ¬l.isAtEnd ∧ (isalnumChar l.peek ∨ l.peek = '_') then
      Lexer.identGo fuel (l.advance).2
    else l

/-- Lexer::identifier: greedy scan, then keyword-table lookup.
start is the index of the first character (position - 1 at the C++
call site). -/
def Lexer.identifier (start : Nat) (l : Lexer) : Token × Lexer :=
  let l' := Lexer.identGo (l.source.length + 1 - l.position) l
  let lexeme := substr l'.source start (l'.position - start)
  match mapFind keywords lexeme with
  | some kw => (l'.makeToken kw lexeme, l')
  | none => (l'.makeToken .IDENTIFIER lexeme, l')

/-- Digit-run loop shared by the three digit scans in Lexer::number. -/
def Lexer.digitsGo : Nat → Lexer → Lexer
  | 0, l => l
  | fuel + 1, l =>
    if ¬l.isAtEnd ∧ isdigitChar l.peek then Lexer.digitsGo fuel (l.advance).2 else l

/-- Lexer::number: integer part, optional fraction, optional exponent;
FLOAT when fraction or exponent present, else INTEGER. -/
def Lexer.number (start : Nat) (l : Lexer) : Token × Lexer :=
  let l₁ := Lexer.digitsGo (l.source.length + 1 - l.position) l
  let (isFloat₁, l₂) :=
    if l₁.peek = '.' ∧ isdigitChar (charAt l₁.source (l₁.position + 1)) then
      let la := (l₁.advance).2
      (true, Lexer.digitsGo (la.source.length + 1 - la.position) la)
    else (false, l₁)
  let (isFloat₂, l₃) :=
    if (l₂.peek = 'e' ∨ l₂.peek = 'E') ∧
        (isdigitChar (charAt l₂.source (l₂.position + 1)) ∨
          ((charAt l₂.source (l₂.position + 1) = '+' ∨ charAt l₂.source (l₂.position + 1) = '-') ∧
            isdigitChar (charAt l₂.source (l₂.position + 2)))) then
      let la := (l₂.advance).2
      let lb := if la.peek = '+' ∨ la.peek = '-' then (la.advance).2 else la
      (true, Lexer.digitsGo (lb.source.length + 1 - lb.position) lb)
    else (isFloat₁, l₂)
  let lexeme := substr l₃.source start (l₃.position - start)
  if isFloat₂ then (l₃.makeToken .FLOAT lexeme, l₃) else (l₃.makeToken .INTEGER lexeme, l₃)

/-- String-body loop of Lexer::string: a backslash skips the following
character verbatim.  Each iteration consumes one or two characters. -/
def Lexer.stringGo : Nat → Lexer → Lexer
  | 0, l => l
  | fuel + 1, l =>
    if ¬l.isAtEnd ∧ l.peek ≠ '"' then
      let l' := if l.peek = '\\' then (l.advance).2 else l
      Lexer.stringGo fuel (l'.advance).2
    else l

/-- Lexer::string: the opening quote is already consumed; an EOF before
the closing quote yields an ERROR token. -/
def Lexer.stringLit (l : Lexer) : Token × Lexer :=
  let start := l.position
  let l₁ := Lexer.stringGo (l.source.length + 1 - l.position) l
  if l₁.isAtEnd then (l₁.errorToken "Unterminated string", l₁)
  else
    let l₂ := (l₁.advance).2
    let lexeme := substr l₂.source start (l₂.position - start - 1)
    (l₂.makeToken .STRING lexeme, l₂)

/-- Lexer::character. -/
def Lexer.charLit (l : Lexer) : Token × Lexer :=
  let start := l.position
  let l₁ := if l.peek = '\\' then (l.advance).2 else l
  let l₂ := (l₁.advance).2
  if l₂.isAtEnd ∨ l₂.peek ≠ '\'' then (l₂.errorToken "Unterminated character", l₂)
  else
    let l₃ := (l₂.advance).2
    let lexeme := substr l₃.source start (l₃.position - start - 1)
    (l₃.makeToken .CHARACTER lexeme, l₃)

/-- Lexer::scanToken: dispatch on the first character with greedy
longest-match on operators. -/
def Lexer.scanToken (l : Lexer) : Token × Lexer :=
  let start := l.position
  let (c, l) := l.advance
  if c = '+' then
    let (m, l) := l.matchChar '+'
    if m then (l.makeToken .PLUS_PLUS "++", l)
    else
      let (m, l) := l.matchChar '='
      if m then (l.makeToken .PLUS_ASSIGN "+=", l) else (l.makeToken .PLUS "+", l)
  else if c = '-' then
    let (m, l) := l.matchChar '-'
    if m then (l.makeToken .MINUS_MINUS "--", l)
    else
      let (m, l) := l.matchChar '='
      if m then (l.makeToken .MINUS_ASSIGN "-=", l)
      else
        let (m, l) := l.matchChar '>'
        if m then (l.makeToken .ARROW "->", l) else (l.makeToken .MINUS "-", l)
  else if c = '*' then
    let (m, l) := l.matchChar '='
    if m then (l.makeToken .MULTIPLY_ASSIGN "*=", l) else (l.makeToken .MULTIPLY "*", l)
  else if c = '/' then
    let (m, l) := l.matchChar '='
    if m then (l.makeToken .DIVIDE_ASSIGN "/=", l) else (l.makeToken .DIVIDE "/", l)
  else if c = '%' then
    let (m, l) := l.matchChar '='
    if m then (l.makeToken .MODULO_ASSIGN "%=", l) else (l.makeToken .MODULO "%", l)
  else if c = '=' then
    let (m, l) := l.matchChar '='
    if m then (l.makeToken .EQUAL "==", l) else (l.makeToken .ASSIGN "=", l)
  else if c = '!' then
    let (m, l) := l.matchChar '='
    if m then (l.makeToken .NOT_EQUAL "!=", l) else (l.makeToken .NOT "!", l)
  else if c = '<' then
    let (m, l) := l.matchChar '<'
    if m then
      let (m, l) := l.matchChar '='
      if m then (l.makeToken .LEFT_SHIFT_ASSIGN "<<=", l) else (l.makeToken .LEFT_SHIFT "<<", l)
    else
      let (m, l) := l.matchChar '='
      if m then (l.makeToken .LESS_EQUAL "<=", l) else (l.makeToken .LESS "<", l)
  else if c = '>' then
    let (m, l) := l.matchChar '>'
    if m then
      let (m, l) := l.matchChar '>'
      if m then
        let (m, l) := l.matchChar '='
        if m then (l.makeToken .UNSIGNED_RIGHT_SHIFT_ASSIGN ">>>=", l)
        else (l.makeToken .UNSIGNED_RIGHT_SHIFT ">>>", l)
      else
        let (m, l) := l.matchChar '='
        if m then (l.makeToken .RIGHT_SHIFT_ASSIGN ">>=", l) else (l.makeToken .RIGHT_SHIFT ">>", l)
    else
      let (m, l) := l.matchChar '='
      if m then (l.makeToken .GREATER_EQUAL ">=", l) else (l.makeToken .GREATER ">", l)
  else if c = '&' then
    let (m, l) := l.matchChar '&'
    if m then (l.makeToken .AND "&&", l)
    else
      let (m, l) := l.matchChar '='
      if m then (l.makeToken .BIT_AND_ASSIGN "&=", l) else (l.makeToken .BIT_AND "&", l)
  else if c = '|' then
    let (m, l) := l.matchChar '|'
    if m then (l.makeToken .OR "||", l)
    else
      let (m, l) := l.matchChar '='
      if m then (l.makeToken .BIT_OR_ASSIGN "|=", l) else (l.makeToken .BIT_OR "|", l)
  else if c = '^' then
    let (m, l) := l.matchChar '='
    if m then (l.makeToken .BIT_XOR_ASSIGN "^=", l) else (l.makeToken .BIT_XOR "^", l)
  else if c = '~' then (l.makeToken .BIT_NOT "~", l)
  else if c = ';' then (l.makeToken .SEMICOLON ";", l)
  else if c = ':' then
    let (m, l) := l.matchChar ':'
    if m then (l.makeToken .DOUBLE_COLON "::", l) else (l.makeToken .COLON ":", l)
  else if c = ',' then (l.makeToken .COMMA ",", l)
  else if c = '.' then
    if isdigitChar l.peek then Lexer.number start l else (l.makeToken .DOT ".", l)
  else if c = '(' then (l.makeToken .LEFT_PAREN "(", l)
  else if c = ')' then (l.makeToken .RIGHT_PAREN ")", l)
  else if c = '{' then (l.makeToken .LEFT_BRACE "\x7b", l)
  else if c = '}' then (l.makeToken .RIGHT_BRACE "\x7d", l)
  else if c = '[' then (l.makeToken .LEFT_BRACKET "[", l)
  else if c = ']' then (l.makeToken .RIGHT_BRACKET "]", l)
  else if c = '"' then Lexer.stringLit l
  else if c = '\'' then Lexer.charLit l
  else if isdigitChar c then Lexer.number start l
  else if ('a' ≤ c ∧ c ≤ 'z') ∨ ('A' ≤ c ∧ c ≤ 'Z') ∨ c = '_' then Lexer.identifier start l
  else (l.errorToken "Unexpected character", l)

/-- Lexer::getNextToken: serve the pushback slot if occupied, otherwise
skip whitespace/comments and scan. -/
def Lexer.getNextToken (l : Lexer) : Token × Lexer :=
  match l.ungotToken with
  | some t => (t, { l with ungotToken := none })
  | none =>
    let l := l.skipWhitespace
    if l.isAtEnd then (l.makeToken .END_OF_FILE "", l)
    else l.scanToken

/-- Lexer::ungetToken: overwrite the one-slot pushback (a previously
pushed token is deleted). -/
def Lexer.ungetToken (token : Token) (l : Lexer) : Lexer :=
  { l with ungotToken := some token }

/-- The stream of the first n tokens produced by repeated
getNextToken calls. -/
def lexTokens : Nat → Lexer → List Token
  | 0, _ => []
  | n + 1, l =>
    let (t, l') := l.getNextToken
    t :: lexTokens n l'

/-! ## Parser primitives (parser.cpp)

Only the token-cursor/diagnostic primitives are embedded (constructor,
advance, check, consume, error); the grammar productions reduce to
these.  The diagnostic stream written to stderr by Parser::error is
modelled as the errors list. -/

/-- Parser state: owned lexer, current/previous token, failure flag and
the emitted diagnostics. -/
structure Parser where
  lexer : Lexer
  currentToken : Token
  previousToken : Token
  hadError : Bool
  errors : List String
  deriving DecidableEq, Repr

/-- Parser::error: print one diagnostic at the current token position
and mark the parse as failed. -/
def Parser.error (p : Parser) (message : String) : Parser :=
  { p with
    errors := p.errors ++
      ["Error at line " ++ toString p.currentToken.line ++ ", column " ++
        toString p.currentToken.column ++ ": " ++ message],
    hadError := true }

/-- The while-loop inside Parser::advance: pull tokens, reporting and
skipping ERROR tokens.  Every ERROR token consumes source characters
(or the pushback slot), so the fuel chosen in advance bounds the
iteration count. -/
def Parser.advanceGo : Nat → Parser → Parser
  | 0, p => p
  | fuel + 1, p =>
    let (t, lx) := p.lexer.getNextToken
    let p := { p with lexer := lx, currentToken := t }
    if t.type = .ERROR then Parser.advanceGo fuel (p.error t.lexeme) else p

/-- Parser::advance. -/
def Parser.advance (p : Parser) : Parser :=
  Parser.advanceGo (p.lexer.source.length + 2 - p.lexer.position)
    { p with previousToken := p.currentToken }

/-- Parser::check. -/
def Parser.check (p : Parser) (type : TokenType) : Bool := p.currentToken.type = type

/-- Parser::consume: on a match return the current token and advance;
on a mismatch report one diagnostic and return the current token
without advancing. -/
def Parser.consume (p : Parser) (type : TokenType) (message : String) : Token × Parser :=
  if p.check type then
    let token := p.currentToken
    (token, p.advance)
  else
    let p := p.error message
    (p.currentToken, p)

/-- Parser constructor: prime one token. -/
def Parser.init (source : String) : Parser :=
  Parser.advance
    { lexer := mkLexer source,
      currentToken := { type := .END_OF_FILE, lexeme := "", line := 0, column := 0 },
      previousToken := { type := .END_OF_FILE, lexeme := "", line := 0, column := 0 },
      hadError := false,
      errors := [] }

/-! ## AST (ast.h)

The polymorphic node classes become two inductive types; unique_ptr
children that may legitimately be null in a parsed tree (optional else
branch, optional for-loop clauses, optional initializers, optional
return value) become Option fields. -/

/-- Expression nodes. -/
inductive Expr where
  | binary (left : Expr) (op : String) (right : Expr)
  | unary (op : String) (right : Expr)
  | literal (value : String) (type : String)
  | identifier (name : String)
  | assign (name : String) (value : Expr)
  | call (callee : Expr) (arguments : List Expr)
  | member (object : Expr) (name : String)
  | thisExpr
  | superExpr (method : String)
  | grouping (expression : Expr)
  | arrayExpr (elements : List Expr)
  | objectExpr (properties : List (String × Expr))
  | indexExpr (object : Expr) (index : Expr)
  | lambda (parameters : List (String × String)) (body : Expr)
  | awaitExpr (expression : Expr)
  | yieldExpr (expression : Expr)
  deriving Repr

/-- Statement nodes. -/
inductive Stmt where
  | expression (expression : Expr)
  | print (expression : Expr)
  | var (name : String) (type : String) (initializer : Option Expr)
  | constDecl (name : String) (type : String) (initializer : Option Expr)
  | block (statements : List Stmt)
  | ifStmt (condition : Expr) (thenBranch : Stmt) (elseBranch : Option Stmt)
  | whileStmt (condition : Expr) (body : Stmt)
  | forStmt (initializer : Option Stmt) (condition : Option Expr) (increment : Option Expr)
      (body : Stmt)
  | ret (value : Option Expr)
  | function (name : String) (parameters : List (String × String)) (returnType : String)
      (body : Stmt) (isAsync : Bool) (isCoroutine : Bool)
  | classStmt (name : String) (superclass : String) (methods : List Stmt)
  | structStmt (name : String) (fields : List (String × String))
  | tryStmt (body : Stmt) (catches : List Stmt) (finallyStmt : Option Stmt)
  | catchStmt (name : String) (type : String) (body : Stmt)
  | throwStmt (expression : Expr)
  | process (id : String) (body : Expr)
  deriving Repr

/-! Node counts of the AST, used to choose sufficient recursion fuel
for the analyzer and code-generator embeddings: every recursive call
of the C++ walkers descends into a strict subterm, so any call chain
is shorter than the node count of its root (each node consumes at most
two units of fuel: one at the dispatch, one in its helper). -/

mutual

/-- Node count of an expression. -/
def sizeE : Expr → Nat
  | .binary left _ right => 1 + sizeE left + sizeE right
  | .unary _ right => 1 + sizeE right
  | .literal _ _ => 1
  | .identifier _ => 1
  | .assign _ value => 1 + sizeE value
  | .call callee arguments => 1 + sizeE callee + sizeEs arguments
  | .member object _ => 1 + sizeE object
  | .thisExpr => 1
  | .superExpr _ => 1
  | .grouping expression => 1 + sizeE expression
  | .arrayExpr elements => 1 + sizeEs elements
  | .objectExpr properties => 1 + sizeEProps properties
  | .indexExpr object index => 1 + sizeE object + sizeE index
  | .lambda _ body => 1 + sizeE body
  | .awaitExpr expression => 1 + sizeE expression
  | .yieldExpr expression => 1 + sizeE expression

/-- Node count of an expression list. -/
def sizeEs : List Expr → Nat
  | [] => 1
  | e :: rest => 1 + sizeE e + sizeEs rest

/-- Node count of an object-literal property list. -/
def sizeEProps : List (String × Expr) → Nat
  | [] => 1
  | p :: rest => 1 + sizeE p.2 + sizeEProps rest

end

/-- Node count of an optional expression. -/
def sizeOptE : Option Expr → Nat
  | none => 1
  | some e => 1 + sizeE e

mutual

/-- Node count of a statement. -/
def sizeS : Stmt → Nat
  | .expression expression => 1 + sizeE expression
  | .print expression => 1 + sizeE expression
  | .var _ _ initializer => 1 + sizeOptE initializer
  | .constDecl _ _ initializer => 1 + sizeOptE initializer
  | .block statements => 1 + sizeSs statements
  | .ifStmt condition thenBranch elseBranch =>
    1 + sizeE condition + sizeS thenBranch + sizeOptS elseBranch
  | .whileStmt condition body => 1 + sizeE condition + sizeS body
  | .forStmt initializer condition increment body =>
    1 + sizeOptS initializer + sizeOptE condition + sizeOptE increment + sizeS body
  | .ret value => 1 + sizeOptE value
  | .function _ _ _ body _ _ => 1 + sizeS body
  | .classStmt _ _ methods => 1 + sizeSs methods
  | .structStmt _ _ => 1
  | .tryStmt body catches finallyStmt => 1 + sizeS body + sizeSs catches + sizeOptS finallyStmt
  | .catchStmt _ _ body => 1 + sizeS body
  | .throwStmt expression => 1 + sizeE expression
  | .process _ body => 1 + sizeE body

/-- Node count of a statement list. -/
def sizeSs : List Stmt → Nat
  | [] => 1
  | st :: rest => 1 + sizeS st + sizeSs rest

/-- Node count of an optional statement. -/
def sizeOptS : Option Stmt → Nat
  | none => 1
  | some st => 1 + sizeS st

end

/-! ## Semantic analyzer (semantic_analyzer.cpp)

The scope stack is a std::vector searched from the back; we store the
list with the innermost scope (vector back) at the head, so the C++
rbegin-to-rend walk is a head-to-tail walk. -/

/-- One scope record of the symbol table. -/
structure Scope where
  vars : List (String × String)
  functions : List (String × String)
  structs : List (String × List (String × String))
  deriving DecidableEq, Repr

/-- Analyzer state: scope stack (innermost first), the _hadError flag
and the diagnostics printed to stderr. -/
structure SemanticAnalyzer where
  hadErrorFlag : Bool
  scopes : List Scope
  errors : List String
  deriving DecidableEq, Repr

/-- SemanticAnalyzer::hadError accessor. -/
def SemanticAnalyzer.hadError (a : SemanticAnalyzer) : Bool := a.hadErrorFlag

/-- SemanticAnalyzer::error: print one diagnostic and set _hadError. -/
def SemanticAnalyzer.error (a : SemanticAnalyzer) (message : String) : SemanticAnalyzer :=
  { a with errors := a.errors ++ ["Semantic error: " ++ message], hadErrorFlag := true }

/-- SemanticAnalyzer::enterScope. -/
def SemanticAnalyzer.enterScope (a : SemanticAnalyzer) : SemanticAnalyzer :=
  { a with scopes := { vars := [], functions := [], structs := [] } :: a.scopes }

/-- SemanticAnalyzer::exitScope. -/
def SemanticAnalyzer.exitScope (a : SemanticAnalyzer) : SemanticAnalyzer :=
  match a.scopes with
  | [] => a
  | _ :: rest => { a with scopes := rest }

/-- SemanticAnalyzer::isVariableDefined: innermost-to-outermost walk. -/
def SemanticAnalyzer.isVariableDefined (a : SemanticAnalyzer) (name : String) : Bool :=
  a.scopes.any fun s => (mapFind s.vars name).isSome

/-- SemanticAnalyzer::isFunctionDefined. -/
def SemanticAnalyzer.isFunctionDefined (a : SemanticAnalyzer) (name : String) : Bool :=
  a.scopes.any fun s => (mapFind s.functions name).isSome

/-- SemanticAnalyzer::isStructDefined. -/
def SemanticAnalyzer.isStructDefined (a : SemanticAnalyzer) (name : String) : Bool :=
  a.scopes.any fun s => (mapFind s.structs name).isSome

/-- SemanticAnalyzer::defineVariable: write into the innermost scope. -/
def SemanticAnalyzer.defineVariable (a : SemanticAnalyzer) (name type : String) :
    SemanticAnalyzer :=
  match a.scopes with
  | [] => a
  | s :: rest => { a with scopes := { s with vars := mapInsert s.vars name type } :: rest }

/-- SemanticAnalyzer::defineFunction. -/
def SemanticAnalyzer.defineFunction (a : SemanticAnalyzer) (name returnType : String) :
    SemanticAnalyzer :=
  match a.scopes with
  | [] => a
  | s :: rest =>
    { a with scopes := { s with functions := mapInsert s.functions name returnType } :: rest }

/-- SemanticAnalyzer::defineStruct. -/
def SemanticAnalyzer.defineStruct (a : SemanticAnalyzer) (name : String)
    (fields : List (String × String)) : SemanticAnalyzer :=
  match a.scopes with
  | [] => a
  | s :: rest => { a with scopes := { s with structs := mapInsert s.structs name fields } :: rest }

/-- The innermost-first variable-type lookup loop used by
analyzeIdentifierExpr and analyzeAssignExpr. -/
def findVarTypeGo (scopes : List Scope) (name : String) : Option String :=
  match scopes with
  | [] => none
  | s :: rest =>
    match mapFind s.vars name with
    | some t => some t
    | none => findVarTypeGo rest name

/-- Wrapper running the variable-type lookup on the scope stack. -/
def SemanticAnalyzer.findVarType (a : SemanticAnalyzer) (name : String) : Option String :=
  findVarTypeGo a.scopes name

/-- The innermost-first function-return-type lookup loop used by
analyzeIdentifierExpr. -/
def findFuncTypeGo (scopes : List Scope) (name : String) : Option String :=
  match scopes with
  | [] => none
  | s :: rest =>
    match mapFind s.functions name with
    | some t => some t
    | none => findFuncTypeGo rest name

/-- Wrapper running the function-type lookup on the scope stack. -/
def SemanticAnalyzer.findFuncType (a : SemanticAnalyzer) (name : String) : Option String :=
  findFuncTypeGo a.scopes name

/-- The single quotation mark used inside the analyzer diagnostics. -/
def tick : String := "\x27"

/-- SemanticAnalyzer constructor: one global scope pre-seeded with the
built-in names, each registered through defineVariable. -/
def SemanticAnalyzer.initState : SemanticAnalyzer :=
  let a : SemanticAnalyzer := { hadErrorFlag := false, scopes := [], errors := [] }
  let a := a.enterScope
  let builtins : List (String × String) :=
    [("print", "function"), ("println", "function"), ("error", "function"),
     ("assert", "function"), ("len", "function"), ("toString", "function"),
     ("parseInt", "function"), ("parseFloat", "function"), ("isNaN", "function"),
     ("isFinite", "function"), ("Math", "object"), ("Date", "object"), ("Array", "object"),
     ("Object", "object"), ("String", "object"), ("Number", "object"), ("Boolean", "object"),
     ("Error", "object")]
  builtins.foldl (fun a nt => a.defineVariable nt.1 nt.2) a

/-- SemanticAnalyzer::analyzeIdentifierExpr (no recursion). -/
def analyzeIdentifierExpr (name : String) (a : SemanticAnalyzer) :
    String × SemanticAnalyzer :=
  if ¬a.isVariableDefined name ∧ ¬a.isFunctionDefined name then
    ("any", a.error ("Undefined identifier " ++ tick ++ name ++ tick ++ "."))
  else if a.isVariableDefined name then
    match a.findVarType name with
    | some t => (t, a)
    | none => ("any", a)
  else
    match a.findFuncType name with
    | some t => (t, a)
    | none => ("any", a)

mutual

/-- SemanticAnalyzer::analyzeExpression: dispatch returning the
inferred type string (the default case of the switch returns any).
The fuel only bounds recursion depth (see sizeE); the analysis itself
never fails. -/
def analyzeExpression : Nat → Expr → SemanticAnalyzer → Option (String × SemanticAnalyzer)
  | 0, _, _ => none
  | fuel + 1, e, a =>
    match e with
    | .binary left op right => analyzeBinaryExpr fuel left op right a
    | .unary op right => analyzeUnaryExpr fuel op right a
    | .literal _ type => some (type, a)
    | .identifier name => some (analyzeIdentifierExpr name a)
    | .assign name value => analyzeAssignExpr fuel name value a
    | .call callee arguments => analyzeCallExpr fuel callee arguments a
    | .member object _ => do
      let (_, a) ← analyzeExpression fuel object a
      some ("any", a)
    | .thisExpr => some ("any", a)
    | .superExpr _ => some ("any", a)
    | .grouping e => analyzeExpression fuel e a
    | _ => some ("any", a)

/-- SemanticAnalyzer::analyzeBinaryExpr.  Faithful to the source: the
comparison-operator disjunction at line 636 tests the greater-than
operator twice and never tests greater-or-equal, so greater-or-equal
falls through to the final return of the left operand type. -/
def analyzeBinaryExpr : Nat → Expr → String → Expr → SemanticAnalyzer →
    Option (String × SemanticAnalyzer)
  | 0, _, _, _, _ => none
  | fuel + 1, left, op, right, a => do
    let (leftType, a) ← analyzeExpression fuel left a
    let (rightType, a) ← analyzeExpression fuel right a
    let a :=
      if leftType ≠ rightType ∧ leftType ≠ "any" ∧ rightType ≠ "any" then
        a.error ("Type mismatch in binary expression: expected " ++ tick ++ leftType ++ tick ++
          ", got " ++ tick ++ rightType ++ tick ++ ".")
      else a
    if op = "+" then
      if leftType = "string" ∨ rightType = "string" then some ("string", a)
      else if leftType = "number" ∨ rightType = "number" then some ("number", a)
      else some (leftType, a)
    else if op = "-" ∨ op = "*" ∨ op = "/" ∨ op = "%" then
      if leftType = "number" ∨ rightType = "number" then some ("number", a)
      else some (leftType, a)
    else if op = "==" ∨ op = "!=" ∨ op = "<" ∨ op = "<=" ∨ op = ">" ∨ op = ">" then
      some ("bool", a)
    else if op = "&&" ∨ op = "||" then
      let a :=
        if leftType ≠ "bool" ∧ leftType ≠ "any" then
          a.error ("Logical operator " ++ tick ++ op ++ tick ++ " expects boolean operands, got " ++
            tick ++ leftType ++ tick ++ ".")
        else a
      let a :=
        if rightType ≠ "bool" ∧ rightType ≠ "any" then
          a.error ("Logical operator " ++ tick ++ op ++ tick ++ " expects boolean operands, got " ++
            tick ++ rightType ++ tick ++ ".")
        else a
      some ("bool", a)
    else some (leftType, a)

/-- SemanticAnalyzer::analyzeUnaryExpr (the source tests the bang
operator twice in its disjunction). -/
def analyzeUnaryExpr : Nat → String → Expr → SemanticAnalyzer →
    Option (String × SemanticAnalyzer)
  | 0, _, _, _ => none
  | fuel + 1, op, right, a => do
    let (rightType, a) ← analyzeExpression fuel right a
    if op = "!" ∨ op = "!" then
      let a :=
        if rightType ≠ "bool" ∧ rightType ≠ "any" then
          a.error ("Logical operator " ++ tick ++ op ++ tick ++ " expects boolean operand, got " ++
            tick ++ rightType ++ tick ++ ".")
        else a
      some ("bool", a)
    else if op = "-" then
      let a :=
        if rightType ≠ "number" ∧ rightType ≠ "any" then
          a.error ("Unary operator " ++ tick ++ "-" ++ tick ++ " expects number operand, got " ++
            tick ++ rightType ++ tick ++ ".")
        else a
      some ("number", a)
    else some (rightType, a)

/-- SemanticAnalyzer::analyzeAssignExpr. -/
def analyzeAssignExpr : Nat → String → Expr → SemanticAnalyzer →
    Option (String × SemanticAnalyzer)
  | 0, _, _, _ => none
  | fuel + 1, name, value, a => do
    let (valueType, a) ← analyzeExpression fuel value a
    if ¬a.isVariableDefined name then
      some ("any", a.error ("Undefined variable " ++ tick ++ name ++ tick ++ "."))
    else
      let varType := (a.findVarType name).getD "any"
      let a :=
        if varType ≠ "any" ∧ valueType ≠ varType then
          a.error ("Type mismatch in assignment: expected " ++ tick ++ varType ++ tick ++
            ", got " ++ tick ++ valueType ++ tick ++ ".")
        else a
      some (valueType, a)

/-- SemanticAnalyzer::analyzeCallExpr: the callee is analyzed, then an
identifier callee must be a defined function unless allow-listed
(println, print, error); arguments are analyzed for effects only and
the call types to any. -/
def analyzeCallExpr : Nat → Expr → List Expr → SemanticAnalyzer →
    Option (String × SemanticAnalyzer)
  | 0, _, _, _ => none
  | fuel + 1, callee, arguments, a => do
    let (_, a) ← analyzeExpression fuel callee a
    let a :=
      match callee with
      | .identifier funcName =>
        if ¬a.isFunctionDefined funcName ∧ funcName ≠ "println" ∧ funcName ≠ "print" ∧
            funcName ≠ "error" then
          a.error ("Undefined function " ++ tick ++ funcName ++ tick ++ ".")
        else a
      | _ => a
    let a ← analyzeArguments fuel arguments a
    some ("any", a)

/-- The argument loop of SemanticAnalyzer::analyzeCallExpr. -/
def analyzeArguments : Nat → List Expr → SemanticAnalyzer → Option SemanticAnalyzer
  | 0, _, _ => none
  | _ + 1, [], a => some a
  | fuel + 1, e :: rest, a => do
    let (_, a) ← analyzeExpression fuel e a
    analyzeArguments fuel rest a

end

mutual

/-- SemanticAnalyzer::analyzeStatement: dispatch (unhandled statement
kinds fall through the switch doing nothing). -/
def analyzeStatement : Nat → Stmt → SemanticAnalyzer → Option SemanticAnalyzer
  | 0, _, _ => none
  | fuel + 1, st, a =>
    match st with
    | .block statements => do
      let a ← analyzeStatements fuel statements a.enterScope
      some a.exitScope
    | .var name type initializer => analyzeVarStatement fuel name type initializer a
    | .constDecl name type initializer => analyzeConstStatement fuel name type initializer a
    | .function name parameters returnType body _ _ =>
      analyzeFunctionStatement fuel name parameters returnType body a
    | .classStmt name superclass methods =>
      analyzeClassStatement fuel name superclass methods a
    | .structStmt name fields =>
      let a :=
        if a.isStructDefined name then
          a.error ("Struct " ++ tick ++ name ++ tick ++ " is already defined.")
        else a
      some (a.defineStruct name fields)
    | .ifStmt condition thenBranch elseBranch => do
      let (conditionType, a) ← analyzeExpression fuel condition a
      let a :=
        if conditionType ≠ "bool" ∧ conditionType ≠ "any" then
          a.error ("If condition must be a boolean, got " ++ tick ++ conditionType ++ tick ++ ".")
        else a
      let a ← analyzeStatement fuel thenBranch a
      match elseBranch with
      | some e => analyzeStatement fuel e a
      | none => some a
    | .whileStmt condition body => do
      let (conditionType, a) ← analyzeExpression fuel condition a
      let a :=
        if conditionType ≠ "bool" ∧ conditionType ≠ "any" then
          a.error ("While condition must be a boolean, got " ++ tick ++ conditionType ++ tick ++
            ".")
        else a
      analyzeStatement fuel body a
    | .forStmt initializer condition increment body => do
      let a ←
        match initializer with
        | some st => analyzeStatement fuel st a
        | none => some a
      let a ←
        match condition with
        | some e => do
          let (conditionType, a) ← analyzeExpression fuel e a
          if conditionType ≠ "bool" ∧ conditionType ≠ "any" then
            some (a.error ("For condition must be a boolean, got " ++ tick ++ conditionType ++
              tick ++ "."))
          else some a
        | none => some a
      let a ←
        match increment with
        | some e => do
          let (_, a) ← analyzeExpression fuel e a
          some a
        | none => some a
      analyzeStatement fuel body a
    | .ret value =>
      (match value with
       | some e => do
         let (_, a) ← analyzeExpression fuel e a
         some a
       | none => some a)
    | .expression expression => do
      let (_, a) ← analyzeExpression fuel expression a
      some a
    | .print expression => do
      let (_, a) ← analyzeExpression fuel expression a
      some a
    | .tryStmt body catches finallyStmt => do
      let a ← analyzeStatement fuel body a
      let a ← analyzeStatements fuel catches a
      match finallyStmt with
      | some f => analyzeStatement fuel f a
      | none => some a
    | .catchStmt name type body => do
      let a := a.enterScope
      let a := a.defineVariable name (if type = "" then "Error" else type)
      let a ← analyzeStatement fuel body a
      some a.exitScope
    | .throwStmt expression => do
      let (_, a) ← analyzeExpression fuel expression a
      some a
    | .process _ body => do
      let (_, a) ← analyzeExpression fuel body a
      some a

/-- SemanticAnalyzer::analyzeVarStatement. -/
def analyzeVarStatement : Nat → String → String → Option Expr → SemanticAnalyzer →
    Option SemanticAnalyzer
  | 0, _, _, _, _ => none
  | fuel + 1, name, type, initializer, a => do
    let a :=
      if a.isVariableDefined name then
        a.error ("Variable " ++ tick ++ name ++ tick ++ " is already defined.")
      else a
    let (ty, a) ←
      if type = "" then
        match initializer with
        | some e => analyzeExpression fuel e a
        | none => some ("any", a)
      else some (type, a)
    let a :=
      if ty ≠ "any" ∧ ty ≠ "int" ∧ ty ≠ "float" ∧ ty ≠ "bool" ∧ ty ≠ "string" ∧
          ¬a.isStructDefined ty then
        a.error ("Unknown type " ++ tick ++ ty ++ tick ++ ".")
      else a
    let a := a.defineVariable name ty
    match initializer with
    | some e => do
      let (initType, a) ← analyzeExpression fuel e a
      if ty ≠ "any" ∧ initType ≠ ty then
        some (a.error ("Type mismatch: expected " ++ tick ++ ty ++ tick ++ ", got " ++ tick ++
          initType ++ tick ++ "."))
      else some a
    | none => some a

/-- SemanticAnalyzer::analyzeConstStatement. -/
def analyzeConstStatement : Nat → String → String → Option Expr → SemanticAnalyzer →
    Option SemanticAnalyzer
  | 0, _, _, _, _ => none
  | fuel + 1, name, type, initializer, a => do
    let a :=
      if a.isVariableDefined name then
        a.error ("Constant " ++ tick ++ name ++ tick ++ " is already defined.")
      else a
    let (ty, a) ←
      if type = "" then
        match initializer with
        | some e => analyzeExpression fuel e a
        | none => some ("any", a)
      else some (type, a)
    let a :=
      if ty ≠ "any" ∧ ty ≠ "int" ∧ ty ≠ "float" ∧ ty ≠ "bool" ∧ ty ≠ "string" ∧
          ¬a.isStructDefined ty then
        a.error ("Unknown type " ++ tick ++ ty ++ tick ++ ".")
      else a
    let a := a.defineVariable name ty
    match initializer with
    | some e => do
      let (initType, a) ← analyzeExpression fuel e a
      if ty ≠ "any" ∧ initType ≠ ty then
        some (a.error ("Type mismatch: expected " ++ tick ++ ty ++ tick ++ ", got " ++ tick ++
          initType ++ tick ++ "."))
      else some a
    | none => some (a.error ("Constant " ++ tick ++ name ++ tick ++ " must be initialized."))

/-- SemanticAnalyzer::analyzeFunctionStatement: the function is
defined (name to return type) before its body scope is entered. -/
def analyzeFunctionStatement : Nat → String → List (String × String) → String → Stmt →
    SemanticAnalyzer → Option SemanticAnalyzer
  | 0, _, _, _, _, _ => none
  | fuel + 1, name, parameters, returnType, body, a => do
    let a :=
      if a.isFunctionDefined name then
        a.error ("Function " ++ tick ++ name ++ tick ++ " is already defined.")
      else a
    let a := a.defineFunction name returnType
    let a := a.enterScope
    let a := parameters.foldl
      (fun a param => a.defineVariable param.1 (if param.2 = "" then "any" else param.2)) a
    let a ← analyzeStatement fuel body a
    some a.exitScope

/-- SemanticAnalyzer::analyzeClassStatement. -/
def analyzeClassStatement : Nat → String → String → List Stmt → SemanticAnalyzer →
    Option SemanticAnalyzer
  | 0, _, _, _, _ => none
  | fuel + 1, name, superclass, methods, a => do
    let a :=
      if a.isStructDefined name then
        a.error ("Class " ++ tick ++ name ++ tick ++ " is already defined.")
      else a
    let a :=
      if superclass ≠ "" ∧ ¬a.isStructDefined superclass then
        a.error ("Superclass " ++ tick ++ superclass ++ tick ++ " is not defined.")
      else a
    let a ← analyzeStatements fuel methods a.enterScope
    some a.exitScope

/-- The statement loops of SemanticAnalyzer::analyze,
analyzeBlockStatement, analyzeClassStatement and
analyzeTryStatement. -/
def analyzeStatements : Nat → List Stmt → SemanticAnalyzer → Option SemanticAnalyzer
  | 0, _, _ => none
  | _ + 1, [], a => some a
  | fuel + 1, st :: rest, a => do
    let a ← analyzeStatement fuel st a
    analyzeStatements fuel rest a

end

/-- SemanticAnalyzer::analyze: walk all statements (side effects
only).  The fuel exceeds twice the node count of the statement list,
so the walk never runs out of it. -/
def analyze (statements : List Stmt) (a : SemanticAnalyzer) : Option SemanticAnalyzer :=
  analyzeStatements (2 * sizeSs statements + 2) statements a

/-! ## IR data model (ir.h / ir.cpp) -/

/-- The closed IR type enum (ir.h enum Type; renamed, Type is a Lean
keyword). -/
inductive IRType where
  | VOID | BOOL | INT8 | INT16 | INT32 | INT64 | FLOAT | DOUBLE | POINTER | ARRAY | STRUCT
  deriving DecidableEq, Repr

/-- The IR opcode enum (ir.h enum OpCode). -/
inductive OpCode where
  | ADD | SUB | MUL | DIV | MOD
  | EQ | NE | LT | LE | GT | GE
  | AND | OR | NOT
  | BIT_AND | BIT_OR | BIT_XOR | SHL | SHR | USHR
  | LOAD | STORE | ALLOC | FREE
  | BR | COND_BR | PHI | CALL | RET
  | CONST | GLOBAL | ALLOCA | GETELEMENTPTR
  deriving DecidableEq, Repr

/-- The Instruction subclass payloads (ConstInst, BinaryInst, ...). -/
inductive InstrKind where
  | constInst (type : IRType) (value : String)
  | binaryInst (opcode : OpCode) (type : IRType) (left : String) (right : String)
  | unaryInst (opcode : OpCode) (type : IRType) (operand : String)
  | condBrInst (condition : String) (trueBlock : String) (falseBlock : String)
  | brInst (targetBlock : String)
  | callInst (returnType : IRType) (funcName : String) (arguments : List String)
  | retInst (returnType : IRType) (value : String)
  | allocaInst (type : IRType)
  | loadInst (type : IRType) (pointer : String)
  | storeInst (type : IRType) (value : String) (pointer : String)
  | phiInst (type : IRType) (incoming : List (String × String))
  deriving DecidableEq, Repr

/-- An IR instruction: the base-class name field (used as an SSA-like
value reference; empty for instructions that produce no value) plus the
subclass payload. -/
structure Instruction where
  name : String
  kind : InstrKind
  deriving DecidableEq, Repr

/-- Instruction::getOpcode across the subclasses. -/
def Instruction.getOpcode (i : Instruction) : OpCode :=
  match i.kind with
  | .constInst .. => .CONST
  | .binaryInst opcode .. => opcode
  | .unaryInst opcode .. => opcode
  | .condBrInst .. => .COND_BR
  | .brInst .. => .BR
  | .callInst .. => .CALL
  | .retInst .. => .RET
  | .allocaInst .. => .ALLOCA
  | .loadInst .. => .LOAD
  | .storeInst .. => .STORE
  | .phiInst .. => .PHI

/-- BasicBlock: named ordered instruction list. -/
structure BasicBlock where
  name : String
  instructions : List Instruction
  deriving DecidableEq, Repr

/-- Function: named, typed, ordered block list. -/
structure Function where
  name : String
  returnType : IRType
  basicBlocks : List BasicBlock
  deriving DecidableEq, Repr

/-- Module: named ordered function list. -/
structure Module where
  name : String
  functions : List Function
  deriving DecidableEq, Repr

/-- typeToString from ir.cpp (exact mnemonics). -/
def typeToString : IRType → String
  | .VOID => "void"
  | .BOOL => "i1"
  | .INT8 => "i8"
  | .INT16 => "i16"
  | .INT32 => "i32"
  | .INT64 => "i64"
  | .FLOAT => "float"
  | .DOUBLE => "double"
  | .POINTER => "ptr"
  | .ARRAY => "array"
  | .STRUCT => "struct"

/-- opcodeToString from ir.cpp (exact mnemonics). -/
def opcodeToString : OpCode → String
  | .ADD => "add"
  | .SUB => "sub"
  | .MUL => "mul"
  | .DIV => "div"
  | .MOD => "mod"
  | .EQ => "eq"
  | .NE => "ne"
  | .LT => "lt"
  | .LE => "le"
  | .GT => "gt"
  | .GE => "ge"
  | .AND => "and"
  | .OR => "or"
  | .NOT => "not"
  | .BIT_AND => "bitand"
  | .BIT_OR => "bitor"
  | .BIT_XOR => "bitxor"
  | .SHL => "shl"
  | .SHR => "shr"
  | .USHR => "ushr"
  | .LOAD => "load"
  | .STORE => "store"
  | .ALLOC => "alloc"
  | .FREE => "free"
  | .BR => "br"
  | .COND_BR => "cond_br"
  | .PHI => "phi"
  | .CALL => "call"
  | .RET => "ret"
  | .CONST => "const"
  | .GLOBAL => "global"
  | .ALLOCA => "alloca"
  | .GETELEMENTPTR => "getelementptr"

/-- Comma-separated join used by CallInst::toString and
PhiInst::toString. -/
def commaJoin : List String → String
  | [] => ""
  | [x] => x
  | x :: rest => x ++ ", " ++ commaJoin rest

/-- The per-subclass toString renderers from ir.cpp. -/
def InstrKind.render : InstrKind → String
  | .constInst type value => "const " ++ typeToString type ++ " " ++ value
  | .binaryInst opcode type left right =>
    opcodeToString opcode ++ " " ++ typeToString type ++ " " ++ left ++ ", " ++ right
  | .unaryInst opcode type operand =>
    opcodeToString opcode ++ " " ++ typeToString type ++ " " ++ operand
  | .condBrInst condition trueBlock falseBlock =>
    "cond_br i1 " ++ condition ++ ", label %" ++ trueBlock ++ ", label %" ++ falseBlock
  | .brInst targetBlock => "br label %" ++ targetBlock
  | .callInst returnType funcName arguments =>
    "call " ++ typeToString returnType ++ " @" ++ funcName ++ "(" ++ commaJoin arguments ++ ")"
  | .retInst returnType value =>
    if returnType = .VOID then "ret void" else "ret " ++ typeToString returnType ++ " " ++ value
  | .allocaInst type => "alloca " ++ typeToString type
  | .loadInst type pointer => "load " ++ typeToString type ++ ", ptr " ++ pointer
  | .storeInst type value pointer =>
    "store " ++ typeToString type ++ " " ++ value ++ ", ptr " ++ pointer
  | .phiInst type incoming =>
    "phi " ++ typeToString type ++ " [" ++
      commaJoin (incoming.map fun p => p.1 ++ ", label %" ++ p.2) ++ "]"

/-- BasicBlock::toString: label line, then each instruction indented,
with a name-equals prefix for value-producing instructions. -/
def BasicBlock.render (b : BasicBlock) : String :=
  b.name ++ ":\n" ++
    String.join (b.instructions.map fun instr =>
      (if instr.name ≠ "" then "  " ++ instr.name ++ " = " else "  ") ++
        instr.kind.render ++ "\n")

/-- Function::toString. -/
def Function.render (f : Function) : String :=
  "define " ++ typeToString f.returnType ++ " @" ++ f.name ++ "() \x7b\n" ++
    String.join (f.basicBlocks.map fun b => b.render ++ "\n") ++ "\x7d\n"

/-- Module::toString. -/
def Module.render (m : Module) : String :=
  "module @" ++ m.name ++ "\n\n" ++ String.join (m.functions.map fun f => f.render ++ "\n")

/-! ## Optimizer (optimizer.cpp) -/

/-- Optimizer::tryMergeConstants: the constant-merging analysis is an
unimplemented stub that always reports no change. -/
def tryMergeConstants (_instr : Instruction) : Bool := false

/-- Optimizer::replaceInstructionUse: rewrite one value name to
another across every operand field of every instruction in a block. -/
def replaceInstructionUse (oldName newName : String) (block : BasicBlock) : BasicBlock :=
  { block with
    instructions := block.instructions.map fun instr =>
      match instr.kind with
      | .binaryInst opcode type left right =>
        let left' := if left = oldName then newName else left
        let right' := if right = oldName then newName else right
        { instr with kind := InstrKind.binaryInst opcode type left' right' }
      | .unaryInst opcode type operand =>
        let operand' := if operand = oldName then newName else operand
        { instr with kind := InstrKind.unaryInst opcode type operand' }
      | .callInst returnType funcName arguments =>
        let arguments' := arguments.map fun arg => if arg = oldName then newName else arg
        { instr with kind := InstrKind.callInst returnType funcName arguments' }
      | .loadInst type pointer =>
        let pointer' := if pointer = oldName then newName else pointer
        { instr with kind := InstrKind.loadInst type pointer' }
      | .storeInst type value pointer =>
        let value' := if value = oldName then newName else value
        let pointer' := if pointer = oldName then newName else pointer
        { instr with kind := InstrKind.storeInst type value' pointer' }
      | .condBrInst condition trueBlock falseBlock =>
        let condition' := if condition = oldName then newName else condition
        { instr with kind := InstrKind.condBrInst condition' trueBlock falseBlock }
      | _ => instr }

/-- Optimizer::constantFolding: attempt to merge constants at each
binary instruction and rewrite uses on success (the attempt always
fails, see tryMergeConstants). -/
def constantFolding (block : BasicBlock) : BasicBlock :=
  block.instructions.foldl
    (fun b instr =>
      match instr.kind with
      | .binaryInst .. =>
        if tryMergeConstants instr then replaceInstructionUse instr.name instr.name b else b
      | _ => b)
    block

/-- Optimizer::simplifyExpressions: the loop inspects binary
instructions but performs no rewrite (stub). -/
def simplifyExpressions (block : BasicBlock) : BasicBlock := block

/-- Optimizer::isDeadCode: unnamed instructions and every
side-effecting or control-flow instruction kind are protected, and the
final use-analysis fallback always answers false. -/
def isDeadCode (instr : Instruction) : Bool :=
  if instr.name = "" then false
  else
    match instr.kind with
    | .retInst .. => false
    | .brInst .. => false
    | .condBrInst .. => false
    | .storeInst .. => false
    | .callInst .. => false
    | .constInst .. => false
    | .allocaInst .. => false
    | _ => false

/-- Optimizer::deadCodeElimination: erase the instructions marked dead
(the C++ collects indices and erases them back to front, which equals
filtering). -/
def deadCodeElimination (block : BasicBlock) : BasicBlock :=
  { block with instructions := block.instructions.filter fun instr => ¬isDeadCode instr }

/-- Optimizer::optimizeBlock: constant folding, then expression
simplification, then dead-code elimination. -/
def optimizeBlock (block : BasicBlock) : BasicBlock :=
  deadCodeElimination (simplifyExpressions (constantFolding block))

/-- Optimizer::optimizeFunction. -/
def optimizeFunction (f : Function) : Function :=
  { f with basicBlocks := f.basicBlocks.map optimizeBlock }

/-- Optimizer::optimize. -/
def optimize (m : Module) : Module :=
  { m with functions := m.functions.map optimizeFunction }

/-! ## Mid-end code generator (codegen.cpp)

CodeGenerator state: the module functions emitted so far, the current
function under construction (name, return type, block list), the
current block as an index into that list (the C++ holds a pointer into
the vector), the name counters and the flat variable map.  The
lowering functions return none exactly where the C++ would dereference
a null child pointer (ForStmt condition and increment are consumed
without a null check). -/

/-- CodeGenerator state. -/
structure GenState where
  fns : List Function
  curName : String
  curRet : IRType
  curBlocks : List BasicBlock
  curIdx : Nat
  instrCount : Nat
  blockCount : Nat
  variableMap : List (String × String)
  deriving DecidableEq, Repr

/-- CodeGenerator::generateInstrName. -/
def generateInstrName (s : GenState) : String × GenState :=
  ("%instr" ++ toString s.instrCount, { s with instrCount := s.instrCount + 1 })

/-- CodeGenerator::generateBlockName. -/
def generateBlockName (s : GenState) : String × GenState :=
  ("block" ++ toString s.blockCount, { s with blockCount := s.blockCount + 1 })

/-- Append an instruction to the block at a given index (the effect of
currentBlock->addInstruction through the currentBlock pointer). -/
def appendInstrAt : List BasicBlock → Nat → Instruction → List BasicBlock
  | [], _, _ => []
  | b :: bs, 0, instr => { b with instructions := b.instructions ++ [instr] } :: bs
  | b :: bs, n + 1, instr => b :: appendInstrAt bs n instr

/-- currentBlock->addInstruction. -/
def addInstruction (s : GenState) (instr : Instruction) : GenState :=
  { s with curBlocks := appendInstrAt s.curBlocks s.curIdx instr }

/-- currentFunction->addBasicBlock. -/
def addBasicBlock (s : GenState) (b : BasicBlock) : GenState :=
  { s with curBlocks := s.curBlocks ++ [b] }

/-- CodeGenerator::createConstant. -/
def createConstant (s : GenState) (type : IRType) (value : String) : String × GenState :=
  let (n, s) := generateInstrName s
  (n, addInstruction s { name := n, kind := .constInst type value })

/-- CodeGenerator::createBinaryOp. -/
def createBinaryOp (s : GenState) (opcode : OpCode) (type : IRType) (left right : String) :
    String × GenState :=
  let (n, s) := generateInstrName s
  (n, addInstruction s { name := n, kind := .binaryInst opcode type left right })

/-- CodeGenerator::createUnaryOp. -/
def createUnaryOp (s : GenState) (opcode : OpCode) (type : IRType) (operand : String) :
    String × GenState :=
  let (n, s) := generateInstrName s
  (n, addInstruction s { name := n, kind := .unaryInst opcode type operand })

/-- CodeGenerator::createCall. -/
def createCall (s : GenState) (returnType : IRType) (funcName : String)
    (arguments : List String) : String × GenState :=
  let (n, s) := generateInstrName s
  (n, addInstruction s { name := n, kind := .callInst returnType funcName arguments })

/-- CodeGenerator::createAlloca. -/
def createAlloca (s : GenState) (type : IRType) : String × GenState :=
  let (n, s) := generateInstrName s
  (n, addInstruction s { name := n, kind := .allocaInst type })

/-- CodeGenerator::createLoad. -/
def createLoad (s : GenState) (type : IRType) (pointer : String) : String × GenState :=
  let (n, s) := generateInstrName s
  (n, addInstruction s { name := n, kind := .loadInst type pointer })

/-- CodeGenerator::createStore (no value name). -/
def createStore (s : GenState) (type : IRType) (value pointer : String) : GenState :=
  addInstruction s { name := "", kind := .storeInst type value pointer }

/-- CodeGenerator::createCondBr (no value name). -/
def createCondBr (s : GenState) (condition trueBlock falseBlock : String) : GenState :=
  addInstruction s { name := "", kind := .condBrInst condition trueBlock falseBlock }

/-- CodeGenerator::createBr (no value name). -/
def createBr (s : GenState) (targetBlock : String) : GenState :=
  addInstruction s { name := "", kind := .brInst targetBlock }

/-- CodeGenerator::createRet (no value name). -/
def createRet (s : GenState) (returnType : IRType) (value : String) : GenState :=
  addInstruction s { name := "", kind := .retInst returnType value }

/-- CodeGenerator::getTypeFromASTType. -/
def getTypeFromASTType (astType : String) : IRType :=
  if astType = "int" ∨ astType = "number" then .INT32
  else if astType = "float" ∨ astType = "double" then .FLOAT
  else if astType = "bool" then .BOOL
  else if astType = "string" then .POINTER
  else .INT32

/-- Failure modes of the code-generator embedding: nullDeref marks the
points where the C++ dereferences a null child pointer; outOfFuel is
the exhaustion case of the fuel-indexed recursion, unreachable when
the fuel exceeds the node count of the tree being lowered. -/
inductive Fault where
  | nullDeref
  | outOfFuel
  deriving DecidableEq, Repr

deriving instance DecidableEq for Except

mutual

/-- CodeGenerator::visitExpression and its per-kind helpers
(visitBinaryExpr, visitUnaryExpr, visitLiteralExpr,
visitIdentifierExpr, visitAssignExpr, visitCallExpr, visitMemberExpr,
visitGroupingExpr), inlined into the dispatch; the default case of the
switch emits a zero constant.  The fuel only bounds recursion depth
(see sizeE). -/
def visitExpression : Nat → Expr → GenState → Except Fault (String × GenState)
  | 0, _, _ => .error .outOfFuel
  | fuel + 1, e, s =>
    match e with
    | .binary left op right => do
      -- visitBinaryExpr
      let (l, s) ← visitExpression fuel left s
      let (r, s) ← visitExpression fuel right s
      let opcode : OpCode :=
        if op = "+" then .ADD
        else if op = "-" then .SUB
        else if op = "*" then .MUL
        else if op = "/" then .DIV
        else if op = "%" then .MOD
        else if op = "==" then .EQ
        else if op = "!=" then .NE
        else if op = "<" then .LT
        else if op = "<=" then .LE
        else if op = ">" then .GT
        else if op = ">=" then .GE
        else if op = "&&" then .AND
        else if op = "||" then .OR
        else .ADD
      .ok (createBinaryOp s opcode .INT32 l r)
    | .unary op right => do
      -- visitUnaryExpr
      let (operand, s) ← visitExpression fuel right s
      let opcode : OpCode := if op = "!" then .NOT else if op = "-" then .SUB else .NOT
      .ok (createUnaryOp s opcode .INT32 operand)
    | .literal value type =>
      -- visitLiteralExpr
      let ty : IRType :=
        if type = "number" then .INT32
        else if type = "string" then .POINTER
        else if type = "bool" then .BOOL
        else .INT32
      .ok (createConstant s ty value)
    | .identifier name =>
      -- visitIdentifierExpr: load a mapped variable, else constant zero
      (match mapFind s.variableMap name with
       | some ptr => .ok (createLoad s .INT32 ptr)
       | none => .ok (createConstant s .INT32 "0"))
    | .assign name value => do
      -- visitAssignExpr
      let (v, s) ← visitExpression fuel value s
      (match mapFind s.variableMap name with
       | some ptr => .ok (v, createStore s .INT32 v ptr)
       | none =>
         let (alloca, s) := createAlloca s .INT32
         let s := createStore s .INT32 v alloca
         .ok (v, { s with variableMap := mapInsert s.variableMap name alloca }))
    | .call callee arguments =>
      -- visitCallExpr: println is special-cased into a printf call with
      -- a format literal; other identifier callees pass through; a
      -- non-identifier callee leaves the defaults (printf, no args)
      (match callee with
       | .identifier ident =>
         if ident = "println" then
           match arguments with
           | arg :: _ =>
             (match arg with
              | .literal _ litType =>
                if litType = "string" then do
                  let (fmt, s) := createConstant s .POINTER "%s\n"
                  let (v, s) ← visitExpression fuel arg s
                  .ok (createCall s .INT32 "printf" [fmt, v])
                else do
                  let (fmt, s) := createConstant s .POINTER "%d\n"
                  let (v, s) ← visitExpression fuel arg s
                  .ok (createCall s .INT32 "printf" [fmt, v])
              | _ => do
                let (fmt, s) := createConstant s .POINTER "%d\n"
                let (v, s) ← visitExpression fuel arg s
                .ok (createCall s .INT32 "printf" [fmt, v]))
           | [] =>
             let (fmt, s) := createConstant s .POINTER "\n"
             .ok (createCall s .INT32 "printf" [fmt])
         else do
           let (args, s) ← visitArguments fuel arguments s
           .ok (createCall s .INT32 ident args)
       | _ => .ok (createCall s .INT32 "printf" []))
    | .member object _ =>
      -- visitMemberExpr: evaluate the object and return it unchanged
      visitExpression fuel object s
    | .grouping expression =>
      -- visitGroupingExpr
      visitExpression fuel expression s
    | _ =>
      -- default case of the switch
      .ok (createConstant s .INT32 "0")

/-- The argument loop of CodeGenerator::visitCallExpr for
non-println callees. -/
def visitArguments : Nat → List Expr → GenState → Except Fault (List String × GenState)
  | 0, _, _ => .error .outOfFuel
  | _ + 1, [], s => .ok ([], s)
  | fuel + 1, e :: rest, s => do
    let (v, s) ← visitExpression fuel e s
    let (vs, s) ← visitArguments fuel rest s
    .ok (v :: vs, s)

end

mutual

/-- CodeGenerator::visitStatement and its per-kind helpers
(visitExpressionStmt, visitPrintStmt, visitVarStmt, visitConstStmt,
visitFunctionStmt, visitReturnStmt, visitBlockStmt, visitIfStmt,
visitWhileStmt, visitForStmt, visitStructStmt, visitClassStmt),
inlined into the dispatch; statement kinds outside the switch lower to
nothing.  The fuel only bounds recursion depth (see sizeS). -/
def visitStatement : Nat → Stmt → GenState → Except Fault GenState
  | 0, _, _ => .error .outOfFuel
  | fuel + 1, st, s =>
    match st with
    | .expression expression => do
      -- visitExpressionStmt
      let (_, s) ← visitExpression fuel expression s
      .ok s
    | .print expression => do
      -- visitPrintStmt: expression first, then the format constant
      let (v, s) ← visitExpression fuel expression s
      let (fmt, s) := createConstant s .POINTER "%d\n"
      .ok (createCall s .INT32 "printf" [fmt, v]).2
    | .var name _ initializer => do
      -- visitVarStmt: alloca + store, fixed INT32 slot
      let (init, s) ←
        match initializer with
        | some e => visitExpression fuel e s
        | none => .ok (createConstant s .INT32 "0")
      let (alloca, s) := createAlloca s .INT32
      let s := createStore s .INT32 init alloca
      .ok { s with variableMap := mapInsert s.variableMap name alloca }
    | .constDecl name _ initializer => do
      -- visitConstStmt (identical lowering)
      let (init, s) ←
        match initializer with
        | some e => visitExpression fuel e s
        | none => .ok (createConstant s .INT32 "0")
      let (alloca, s) := createAlloca s .INT32
      let s := createStore s .INT32 init alloca
      .ok { s with variableMap := mapInsert s.variableMap name alloca }
    | .function name _ _ body _ _ => do
      -- visitFunctionStmt: fresh sibling function with its own entry
      -- block and an empty variable map; state saved and restored
      let (entryName, s) := generateBlockName s
      let savedName := s.curName
      let savedRet := s.curRet
      let savedBlocks := s.curBlocks
      let savedIdx := s.curIdx
      let savedVars := s.variableMap
      let s := { s with curName := name, curRet := .INT32,
                        curBlocks := [{ name := entryName, instructions := [] }], curIdx := 0,
                        variableMap := [] }
      let s ← visitStatement fuel body s
      let (zero, s) := createConstant s .INT32 "0"
      let s := createRet s .INT32 zero
      let s := { s with
        fns := s.fns ++ [({ name := s.curName, returnType := s.curRet,
                            basicBlocks := s.curBlocks } : Function)] }
      .ok { s with curName := savedName, curRet := savedRet, curBlocks := savedBlocks,
                   curIdx := savedIdx, variableMap := savedVars }
    | .ret value =>
      -- visitReturnStmt
      (match value with
       | some e => do
         let (v, s) ← visitExpression fuel e s
         .ok (createRet s .INT32 v)
       | none =>
         let (zero, s) := createConstant s .INT32 "0"
         .ok (createRet s .INT32 zero))
    | .block statements =>
      -- visitBlockStmt
      visitStatements fuel statements s
    | .ifStmt condition thenBranch elseBranch => do
      -- visitIfStmt: three new blocks, CondBr from the current block,
      -- both branches Br to merge, current becomes merge
      let (cond, s) ← visitExpression fuel condition s
      let (thenName, s) := generateBlockName s
      let (elseName, s) := generateBlockName s
      let (mergeName, s) := generateBlockName s
      let base := s.curBlocks.length
      let s := addBasicBlock s { name := thenName, instructions := [] }
      let s := addBasicBlock s { name := elseName, instructions := [] }
      let s := addBasicBlock s { name := mergeName, instructions := [] }
      let s := createCondBr s cond thenName elseName
      let s := { s with curIdx := base }
      let s ← visitStatement fuel thenBranch s
      let s := createBr s mergeName
      let s := { s with curIdx := base + 1 }
      let s ←
        match elseBranch with
        | some e => visitStatement fuel e s
        | none => .ok s
      let s := createBr s mergeName
      .ok { s with curIdx := base + 2 }
    | .whileStmt condition body => do
      -- visitWhileStmt: condition/body/merge blocks with a back edge
      let (condName, s) := generateBlockName s
      let (bodyName, s) := generateBlockName s
      let (mergeName, s) := generateBlockName s
      let base := s.curBlocks.length
      let s := addBasicBlock s { name := condName, instructions := [] }
      let s := addBasicBlock s { name := bodyName, instructions := [] }
      let s := addBasicBlock s { name := mergeName, instructions := [] }
      let s := createBr s condName
      let s := { s with curIdx := base }
      let (cond, s) ← visitExpression fuel condition s
      let s := createCondBr s cond bodyName mergeName
      let s := { s with curIdx := base + 1 }
      let s ← visitStatement fuel body s
      let s := createBr s condName
      .ok { s with curIdx := base + 2 }
    | .forStmt initializer condition increment body => do
      -- visitForStmt: the initializer is null-checked, but the
      -- condition and increment children are dereferenced without a
      -- check (visitExpression on a null pointer faults)
      let s ←
        match initializer with
        | some stInit => visitStatement fuel stInit s
        | none => .ok s
      let (condName, s) := generateBlockName s
      let (bodyName, s) := generateBlockName s
      let (incrName, s) := generateBlockName s
      let (mergeName, s) := generateBlockName s
      let base := s.curBlocks.length
      let s := addBasicBlock s { name := condName, instructions := [] }
      let s := addBasicBlock s { name := bodyName, instructions := [] }
      let s := addBasicBlock s { name := incrName, instructions := [] }
      let s := addBasicBlock s { name := mergeName, instructions := [] }
      let s := createBr s condName
      let s := { s with curIdx := base }
      let (cond, s) ←
        match condition with
        | some e => visitExpression fuel e s
        | none => .error .nullDeref
      let s := createCondBr s cond bodyName mergeName
      let s := { s with curIdx := base + 1 }
      let s ← visitStatement fuel body s
      let s := createBr s incrName
      let s := { s with curIdx := base + 2 }
      let (_, s) ←
        match increment with
        | some e => visitExpression fuel e s
        | none => .error .nullDeref
      let s := createBr s condName
      .ok { s with curIdx := base + 3 }
    | .structStmt .. =>
      -- visitStructStmt: no code generated
      .ok s
    | .classStmt .. =>
      -- visitClassStmt: no code generated
      .ok s
    | _ =>
      -- statement kinds not handled by the switch
      .ok s

/-- The statement loops of CodeGenerator::generate and
visitBlockStmt. -/
def visitStatements : Nat → List Stmt → GenState → Except Fault GenState
  | 0, _, _ => .error .outOfFuel
  | _ + 1, [], s => .ok s
  | fuel + 1, st :: rest, s => do
    let s ← visitStatement fuel st s
    visitStatements fuel rest s

end

/-- CodeGenerator::generate: a module named main holding one synthetic
main function (INT32) built from the top-level statements, closed with
an implicit ret of constant zero; nested fn declarations were appended
to the module before main.  The fuel passed to the statement loop
exceeds the node count of the statement list, so it never runs out
(every recursive call of the visitors descends into a strict subterm
or list tail). -/
def generate (statements : List Stmt) : Except Fault Module := do
  let s : GenState :=
    { fns := [], curName := "main", curRet := .INT32, curBlocks := [], curIdx := 0,
      instrCount := 0, blockCount := 0, variableMap := [] }
  let (entryName, s) := generateBlockName s
  let s := addBasicBlock s { name := entryName, instructions := [] }
  let s ← visitStatements (sizeSs statements + 1) statements s
  let (zero, s) := createConstant s .INT32 "0"
  let s := createRet s .INT32 zero
  .ok { name := "main",
        functions := s.fns ++ [({ name := s.curName, returnType := s.curRet,
                                  basicBlocks := s.curBlocks } : Function)] }

/-! ## Derived notions used by the specification claims -/

/-- The terminator instructions of the IR: Br, CondBr and Ret. -/
def isTerminator (i : Instruction) : Bool :=
  match i.kind with
  | .brInst .. => true
  | .condBrInst .. => true
  | .retInst .. => true
  | _ => false

/-- A block is well terminated when it is nonempty and its last
instruction is a terminator. -/
def endsTerm (b : BasicBlock) : Bool :=
  match b.instructions.getLast? with
  | some i => isTerminator i
  | none => false

/-- Every block of the function is well terminated. -/
def blocksClosed (f : Function) : Bool := f.basicBlocks.all endsTerm

/-! Concrete programs used by individual claims.  Each is written as
the AST the parser produces for the quoted source (integer literals
typed number, parenthesised groups kept, assignment and call nodes as
built by the expression cascade). -/

/-- AST of: let x:int=1; while(x<3)(block: println(x); x=x+1;). -/
def progC2 : List Stmt :=
  [.var "x" "int" (some (.literal "1" "number")),
   .whileStmt (.binary (.identifier "x") "<" (.literal "3" "number"))
     (.block [.expression (.call (.identifier "println") [.identifier "x"]),
              .expression (.assign "x" (.binary (.identifier "x") "+" (.literal "1" "number")))])]

/-- AST of: if (x>0) (block: println(1);) else (block: println(2);). -/
def progC7 : List Stmt :=
  [.ifStmt (.binary (.identifier "x") ">" (.literal "0" "number"))
     (.block [.expression (.call (.identifier "println") [.literal "1" "number"])])
     (some (.block [.expression (.call (.identifier "println") [.literal "2" "number"])]))]

/-- AST of a top-level return statement: return 1;. -/
def progRet : List Stmt := [.ret (some (.literal "1" "number"))]

/-- The module produced by generate on the empty statement list. -/
def mEmpty : Module :=
  Module.mk "main"
    [Function.mk "main" .INT32
      [BasicBlock.mk "block0"
        [Instruction.mk "%instr0" (.constInst .INT32 "0"),
         Instruction.mk "" (.retInst .INT32 "%instr0")]]]

/-- A lexer state over the source x carrying a pending pushback token
(the state reached by pushing back an INTEGER token). -/
def lexC9 : Lexer :=
  { mkLexer "x" with ungotToken := some { type := .INTEGER, lexeme := "9", line := 1, column := 1 } }

/-! ## Frame relations for the code-generator invariant proof

EFrame describes the effect of expression lowering on the block
structure: expressions only append instructions to the current block
(and touch counters and the variable map), so the current-block index,
the block count, the other blocks and the finished functions are
untouched.

SFrame describes the effect of statement lowering: blocks are only
appended, blocks other than the current one are never written, the
current-block pointer either stays or moves to a newly created block,
validity of the pointer is preserved, every block the statement
touched or created is well terminated except the final current block,
and finished functions are only appended and are fully terminated. -/

/-- Effect of expression lowering on the generator state. -/
def EFrame (s s' : GenState) : Prop :=
  s'.curIdx = s.curIdx ∧
  s'.curBlocks.length = s.curBlocks.length ∧
  s'.fns = s.fns ∧
  ∀ j, j ≠ s.curIdx → s'.curBlocks[j]? = s.curBlocks[j]?

/-- Effect of statement lowering on the generator state: blocks are
only appended, the current-block pointer stays or moves to a new
block, its validity is preserved, every block is afterwards well
terminated or the current block or an untouched non-current block
that already existed, and finished functions are only appended and
are fully terminated. -/
def SFrame (s s' : GenState) : Prop :=
  s.curBlocks.length ≤ s'.curBlocks.length ∧
  (s'.curIdx = s.curIdx ∨ s.curBlocks.length ≤ s'.curIdx) ∧
  (s.curIdx < s.curBlocks.length → s'.curIdx < s'.curBlocks.length) ∧
  (∀ j b, s'.curBlocks[j]? = some b →
     endsTerm b = true ∨ j = s'.curIdx ∨ (s.curBlocks[j]? = some b ∧ j ≠ s.curIdx)) ∧
  (∃ new, s'.fns = s.fns ++ new ∧ ∀ f ∈ new, blocksClosed f = true)

/-! ## Theorems for the specification claims -/

/-! ### Lemmas for the code-generator block invariant (claim C1): the
frame properties of expression and statement lowering -/

/-! ### Basic lemmas about the generator state primitives -/

theorem appendInstrAt_length (bs : List BasicBlock) (i : Nat) (instr : Instruction) :
    (appendInstrAt bs i instr).length = bs.length := by
  induction bs generalizing i with
  | nil => rfl
  | cons b bs ih =>
    cases i with
    | zero => rfl
    | succ n => simpa [appendInstrAt] using ih n

theorem appendInstrAt_get_ne (bs : List BasicBlock) (i j : Nat) (instr : Instruction)
    (h : j ≠ i) : (appendInstrAt bs i instr)[j]? = bs[j]? := by
  induction bs generalizing i j with
  | nil => rfl
  | cons b bs ih =>
    cases i with
    | zero =>
      cases j with
      | zero => exact absurd rfl h
      | succ m => simp [appendInstrAt]
    | succ n =>
      cases j with
      | zero => simp [appendInstrAt]
      | succ m =>
        simp only [appendInstrAt, List.getElem?_cons_succ]
        exact ih n m (fun hh => h (by rw [hh]))

theorem appendInstrAt_get_eq (bs : List BasicBlock) (i : Nat) (instr : Instruction) :
    (appendInstrAt bs i instr)[i]? =
      (bs[i]?).map fun b => { b with instructions := b.instructions ++ [instr] } := by
  induction bs generalizing i with
  | nil => rfl
  | cons b bs ih =>
    cases i with
    | zero => simp [appendInstrAt]
    | succ n => simpa [appendInstrAt] using ih n

theorem endsTerm_concat (b : BasicBlock) (instr : Instruction)
    (h : isTerminator instr = true) :
    endsTerm { b with instructions := b.instructions ++ [instr] } = true := by
  simp [endsTerm, List.getLast?_concat, h]

/-! ### EFrame lemmas: expression lowering touches only the current
block, the counters and the variable map -/

theorem EFrame.erefl (s : GenState) : EFrame s s :=
  ⟨Eq.refl _, Eq.refl _, Eq.refl _, fun _ _ => Eq.refl _⟩

theorem EFrame.etrans {s t u : GenState} (h1 : EFrame s t) (h2 : EFrame t u) : EFrame s u := by
  obtain ⟨a1, b1, c1, d1⟩ := h1
  obtain ⟨a2, b2, c2, d2⟩ := h2
  refine ⟨a2.trans a1, b2.trans b1, c2.trans c1, fun j hj => ?_⟩
  rw [d2 j (by rw [a1]; exact hj), d1 j hj]

theorem EFrame_addInstruction (s : GenState) (instr : Instruction) :
    EFrame s (addInstruction s instr) := by
  refine ⟨rfl, ?_, rfl, fun j hj => ?_⟩
  · exact appendInstrAt_length s.curBlocks s.curIdx instr
  · exact appendInstrAt_get_ne s.curBlocks s.curIdx j instr hj

theorem EFrame_counters (s : GenState) (k k' : Nat) :
    EFrame s { s with instrCount := k, blockCount := k' } :=
  ⟨rfl, rfl, rfl, fun _ _ => rfl⟩

theorem EFrame_createConstant (s : GenState) (ty : IRType) (v : String) :
    EFrame s (createConstant s ty v).2 :=
  EFrame.etrans (EFrame_counters s (s.instrCount + 1) s.blockCount) (EFrame_addInstruction _ _)

theorem EFrame_createBinaryOp (s : GenState) (op : OpCode) (ty : IRType) (l r : String) :
    EFrame s (createBinaryOp s op ty l r).2 :=
  EFrame.etrans (EFrame_counters s (s.instrCount + 1) s.blockCount) (EFrame_addInstruction _ _)

theorem EFrame_createUnaryOp (s : GenState) (op : OpCode) (ty : IRType) (v : String) :
    EFrame s (createUnaryOp s op ty v).2 :=
  EFrame.etrans (EFrame_counters s (s.instrCount + 1) s.blockCount) (EFrame_addInstruction _ _)

theorem EFrame_createCall (s : GenState) (ty : IRType) (f : String) (args : List String) :
    EFrame s (createCall s ty f args).2 :=
  EFrame.etrans (EFrame_counters s (s.instrCount + 1) s.blockCount) (EFrame_addInstruction _ _)

theorem EFrame_createAlloca (s : GenState) (ty : IRType) :
    EFrame s (createAlloca s ty).2 :=
  EFrame.etrans (EFrame_counters s (s.instrCount + 1) s.blockCount) (EFrame_addInstruction _ _)

theorem EFrame_createLoad (s : GenState) (ty : IRType) (p : String) :
    EFrame s (createLoad s ty p).2 :=
  EFrame.etrans (EFrame_counters s (s.instrCount + 1) s.blockCount) (EFrame_addInstruction _ _)

theorem EFrame_createStore (s : GenState) (ty : IRType) (v p : String) :
    EFrame s (createStore s ty v p) :=
  EFrame_addInstruction _ _

theorem EFrame_setVarMap (s : GenState) (m : List (String × String)) :
    EFrame s { s with variableMap := m } :=
  ⟨rfl, rfl, rfl, fun _ _ => rfl⟩

/-- Second projection of an ok-result equality. -/
theorem eokSnd {α : Type} {x : α × GenState} {r : α} {t : GenState}
    (h : (Except.ok x : Except Fault (α × GenState)) = .ok (r, t)) : x.2 = t := by
  have hx := Except.ok.inj h
  rw [hx]

/-- Expression lowering only appends instructions to the current
block: visitExpression and visitArguments satisfy EFrame. -/
theorem visitExpression_eframe :
    ∀ fuel : Nat,
      (∀ (e : Expr) (s : GenState) (r : String) (s' : GenState),
        visitExpression fuel e s = .ok (r, s') → EFrame s s') ∧
      (∀ (es : List Expr) (s : GenState) (rs : List String) (s' : GenState),
        visitArguments fuel es s = .ok (rs, s') → EFrame s s') := by
  intro fuel
  induction fuel with
  | zero =>
    constructor
    · intro e s r s' h; simp [visitExpression] at h
    · intro es s rs s' h; simp [visitArguments] at h
  | succ n ih =>
    obtain ⟨ihE, ihA⟩ := ih
    constructor
    · intro e s r s' h
      cases e with
      | binary left op right =>
        simp only [visitExpression] at h
        cases hL : visitExpression n left s with
        | error f => rw [hL] at h; simp [Bind.bind, Except.bind] at h
        | ok p =>
          obtain ⟨l, s1⟩ := p
          rw [hL] at h
          simp only [Bind.bind, Except.bind] at h
          cases hR : visitExpression n right s1 with
          | error f => rw [hR] at h; simp at h
          | ok q =>
            obtain ⟨rr, s2⟩ := q
            rw [hR] at h
            exact (eokSnd h) ▸
              (((ihE _ _ _ _ hL).etrans (ihE _ _ _ _ hR)).etrans
                (EFrame_createBinaryOp _ _ _ _ _))
      | unary op right =>
        simp only [visitExpression] at h
        cases hR : visitExpression n right s with
        | error f => rw [hR] at h; simp [Bind.bind, Except.bind] at h
        | ok p =>
          obtain ⟨v, s1⟩ := p
          rw [hR] at h
          simp only [Bind.bind, Except.bind] at h
          exact (eokSnd h) ▸ ((ihE _ _ _ _ hR).etrans (EFrame_createUnaryOp _ _ _ _))
      | literal value ty =>
        simp only [visitExpression] at h
        exact (eokSnd h) ▸ EFrame_createConstant _ _ _
      | identifier name =>
        simp only [visitExpression] at h
        cases hm : mapFind s.variableMap name with
        | some ptr =>
          rw [hm] at h
          simp only at h
          exact (eokSnd h) ▸ EFrame_createLoad _ _ _
        | none =>
          rw [hm] at h
          simp only at h
          exact (eokSnd h) ▸ EFrame_createConstant _ _ _
      | assign name value =>
        simp only [visitExpression] at h
        cases hV : visitExpression n value s with
        | error f => rw [hV] at h; simp [Bind.bind, Except.bind] at h
        | ok p =>
          obtain ⟨v, s1⟩ := p
          rw [hV] at h
          simp only [Bind.bind, Except.bind] at h
          cases hm : mapFind s1.variableMap name with
          | some ptr =>
            rw [hm] at h
            simp only at h
            exact (eokSnd h) ▸ ((ihE _ _ _ _ hV).etrans (EFrame_createStore _ _ _ _))
          | none =>
            rw [hm] at h
            simp only at h
            rcases hA : createAlloca s1 .INT32 with ⟨alloca, s2⟩
            rw [hA] at h
            simp only at h
            refine (eokSnd h) ▸ ((ihE _ _ _ _ hV).etrans ?_)
            have h1 : EFrame s1 s2 := by
              have := EFrame_createAlloca s1 .INT32
              rw [hA] at this
              exact this
            exact (h1.etrans (EFrame_createStore _ _ _ _)).etrans (EFrame_setVarMap _ _)
      | call callee arguments =>
        simp only [visitExpression] at h
        cases callee with
        | identifier ident =>
          simp only at h
          by_cases hi : ident = "println"
          · rw [if_pos hi] at h
            cases arguments with
            | nil =>
              rcases hF : createConstant s .POINTER "\n" with ⟨fmt, s1⟩
              rw [hF] at h
              simp only at h
              have h1 : EFrame s s1 := by
                have := EFrame_createConstant s .POINTER "\n"
                rw [hF] at this
                exact this
              exact (eokSnd h) ▸ (h1.etrans (EFrame_createCall _ _ _ _))
            | cons arg rest =>
              have core :
                  ∀ fm : String,
                    (do
                      let (fmt, s) := createConstant s .POINTER fm
                      let (v, s) ← visitExpression n arg s
                      Except.ok (createCall s .INT32 "printf" [fmt, v])) = .ok (r, s') →
                    EFrame s s' := by
                intro fm hh
                rcases hF : createConstant s .POINTER fm with ⟨fmt, s1⟩
                rw [hF] at hh
                simp only [Bind.bind, Except.bind] at hh
                have h1 : EFrame s s1 := by
                  have := EFrame_createConstant s .POINTER fm
                  rw [hF] at this
                  exact this
                cases hV : visitExpression n arg s1 with
                | error f => rw [hV] at hh; simp at hh
                | ok p =>
                  obtain ⟨v, s2⟩ := p
                  rw [hV] at hh
                  exact (eokSnd hh) ▸
                    ((h1.etrans (ihE _ _ _ _ hV)).etrans (EFrame_createCall _ _ _ _))
              cases arg with
              | literal lv lt =>
                simp only at h
                by_cases hs : lt = "string"
                · rw [if_pos hs] at h
                  exact core "%s\n" h
                · rw [if_neg hs] at h
                  exact core "%d\n" h
              | _ => first
                | exact core "%d\n" h
          · rw [if_neg hi] at h
            cases hA : visitArguments n arguments s with
            | error f => rw [hA] at h; simp [Bind.bind, Except.bind] at h
            | ok p =>
              obtain ⟨args, s1⟩ := p
              rw [hA] at h
              simp only [Bind.bind, Except.bind] at h
              exact (eokSnd h) ▸ ((ihA _ _ _ _ hA).etrans (EFrame_createCall _ _ _ _))
        | _ => first
          | (simp only at h; exact (eokSnd h) ▸ EFrame_createCall _ _ _ _)
      | member object nm =>
        simp only [visitExpression] at h
        exact ihE _ _ _ _ h
      | grouping expression =>
        simp only [visitExpression] at h
        exact ihE _ _ _ _ h
      | _ => first
        | (simp only [visitExpression] at h; exact (eokSnd h) ▸ EFrame_createConstant _ _ _)
    · intro es s rs s' h
      cases es with
      | nil =>
        simp only [visitArguments] at h
        exact (eokSnd h) ▸ EFrame.erefl s
      | cons e rest =>
        simp only [visitArguments] at h
        cases hE : visitExpression n e s with
        | error f => rw [hE] at h; simp [Bind.bind, Except.bind] at h
        | ok p =>
          obtain ⟨v, s1⟩ := p
          rw [hE] at h
          simp only [Bind.bind, Except.bind] at h
          cases hR : visitArguments n rest s1 with
          | error f => rw [hR] at h; simp at h
          | ok q =>
            obtain ⟨vs, s2⟩ := q
            rw [hR] at h
            exact (eokSnd h) ▸ ((ihE _ _ _ _ hE).etrans (ihA _ _ _ _ hR))

theorem SFrame.srefl (s : GenState) : SFrame s s := by
  refine ⟨le_rfl, Or.inl rfl, fun h => h, fun j b hj => ?_, [], by simp, by simp⟩
  by_cases hc : j = s.curIdx
  · exact Or.inr (Or.inl hc)
  · exact Or.inr (Or.inr ⟨hj, hc⟩)

theorem EFrame.toSFrame {s s' : GenState} (h : EFrame s s') : SFrame s s' := by
  obtain ⟨hc, hl, hf, hg⟩ := h
  refine ⟨le_of_eq hl.symm, Or.inl hc, fun hv => ?_, fun j b hj => ?_, [], by simp [hf], by simp⟩
  · rw [hc, hl]; exact hv
  · by_cases hcase : j = s.curIdx
    · exact Or.inr (Or.inl (hcase.trans hc.symm))
    · refine Or.inr (Or.inr ⟨?_, hcase⟩)
      rw [← hg j hcase]; exact hj

theorem SFrame.strans {s t u : GenState} (h1 : SFrame s t) (h2 : SFrame t u) : SFrame s u := by
  obtain ⟨l1, c1, v1, g1, n1, hn1, hcl1⟩ := h1
  obtain ⟨l2, c2, v2, g2, n2, hn2, hcl2⟩ := h2
  refine ⟨l1.trans l2, ?_, fun hv => v2 (v1 hv), fun j b hj => ?_, n1 ++ n2, ?_, ?_⟩
  · rcases c2 with h | h
    · rcases c1 with h' | h'
      · exact Or.inl (h.trans h')
      · exact Or.inr (h ▸ h')
    · exact Or.inr (l1.trans h)
  · rcases g2 j b hj with hcl | hcur | ⟨ht, hne⟩
    · exact Or.inl hcl
    · exact Or.inr (Or.inl hcur)
    · rcases g1 j b ht with hcl | hcur | ⟨hs, hne'⟩
      · exact Or.inl hcl
      · exact absurd hcur hne
      · exact Or.inr (Or.inr ⟨hs, hne'⟩)
  · rw [hn2, hn1, List.append_assoc]
  · intro f hf
    rcases List.mem_append.mp hf with hf | hf
    · exact hcl1 f hf
    · exact hcl2 f hf


theorem appendInstrAt_closes (bs : List BasicBlock) (i : Nat) (instr : Instruction)
    (ht : isTerminator instr = true) (b : BasicBlock)
    (hb : (appendInstrAt bs i instr)[i]? = some b) : endsTerm b = true := by
  rw [appendInstrAt_get_eq] at hb
  cases hx : bs[i]? with
  | none => rw [hx] at hb; simp at hb
  | some b0 =>
    rw [hx] at hb
    simp only [Option.map_some'] at hb
    cases hb
    exact endsTerm_concat b0 instr ht

theorem sfWhile (n : Nat)
    (ihS : ∀ (st : Stmt) (s s' : GenState), visitStatement n st s = .ok s' → SFrame s s')
    (ihE : ∀ (e : Expr) (s : GenState) (r : String) (s' : GenState),
       visitExpression n e s = .ok (r, s') → EFrame s s')
    (condition : Expr) (body : Stmt) (s s' : GenState)
    (h : visitStatement (n + 1) (.whileStmt condition body) s = .ok s') :
    SFrame s s' := by
  simp only [visitStatement, Bind.bind, Except.bind, generateBlockName, addBasicBlock,
    createBr, createCondBr, addInstruction] at h
  split at h
  · exact absurd h (by simp)
  · rename_i p heq1
    obtain ⟨cond, t4⟩ := p
    simp only [] at h
    split at h
    · exact absurd h (by simp)
    · rename_i t7 heq2
      have hs' := Except.ok.inj h
      subst hs'
      have hE := ihE _ _ _ _ heq1
      have hS := ihS _ _ _ heq2
      obtain ⟨hE1, hE2, hE3, hE4⟩ := hE
      obtain ⟨hS1, hS2, hS3, hS4, new, hnew, hclosed⟩ := hS
      simp only [] at hE3 hE4 hS4 hnew
      simp only [appendInstrAt_length, List.length_append, List.length_cons,
        List.length_nil] at hE1 hE2 hS1
      simp only [SFrame]
      refine ⟨?_, ?_, ?_, ?_, new, ?_, hclosed⟩
      · simp only [appendInstrAt_length]
        omega
      · omega
      · intro _
        simp only [appendInstrAt_length]
        omega
      · intro j b hj
        by_cases hjt7 : j = t7.curIdx
        · refine Or.inl (appendInstrAt_closes _ _ _ ?_ b (hjt7 ▸ hj))
          rfl
        · rw [appendInstrAt_get_ne _ _ _ _ hjt7] at hj
          rcases hS4 j b hj with hcl | hcur | ⟨hpre, hne6⟩
          · exact Or.inl hcl
          · exact absurd hcur hjt7
          · by_cases hjb : j = t4.curIdx
            · refine Or.inl (appendInstrAt_closes _ _ _ ?_ b (hjb ▸ hpre))
              rfl
            · rw [appendInstrAt_get_ne _ _ _ _ hjb] at hpre
              rw [hE4 j (by omega)] at hpre
              by_cases hjc : j = s.curIdx
              · refine Or.inl (appendInstrAt_closes _ _ _ ?_ b (hjc ▸ hpre))
                rfl
              · rw [appendInstrAt_get_ne _ _ _ _ hjc] at hpre
                rcases Nat.lt_or_ge j s.curBlocks.length with hlt | hge
                · refine Or.inr (Or.inr ⟨?_, hjc⟩)
                  rw [List.append_assoc, List.append_assoc, List.getElem?_append,
                    if_pos hlt] at hpre
                  exact hpre
                · rw [List.append_assoc, List.append_assoc, List.getElem?_append,
                    if_neg (by omega)] at hpre
                  simp only [List.cons_append, List.nil_append] at hpre
                  rcases Nat.lt_or_ge (j - s.curBlocks.length) 3 with h3 | h3
                  · exact Or.inr (Or.inl (by omega))
                  · rw [List.getElem?_eq_none (by simp; omega)] at hpre
                    exact absurd hpre (by simp)
      · rw [hnew, hE3]

theorem all_endsTerm_of_get (bs : List BasicBlock)
    (h : ∀ (j : Nat) (b : BasicBlock), bs[j]? = some b → endsTerm b = true) : bs.all endsTerm = true := by
  rw [List.all_eq_true]
  intro b hb
  obtain ⟨j, hj⟩ := List.mem_iff_getElem?.mp hb
  exact h j b hj

theorem sfExpression (n : Nat) (e : Expr) (s s' : GenState)
    (h : visitStatement (n + 1) (.expression e) s = .ok s') : SFrame s s' := by
  simp only [visitStatement, Bind.bind, Except.bind] at h
  split at h
  · exact absurd h (by simp)
  · rename_i p heq
    obtain ⟨v, t⟩ := p
    simp only [] at h
    have hx := Except.ok.inj h
    subst hx
    exact ((visitExpression_eframe n).1 _ _ _ _ heq).toSFrame

theorem sfPrint (n : Nat) (e : Expr) (s s' : GenState)
    (h : visitStatement (n + 1) (.print e) s = .ok s') : SFrame s s' := by
  simp only [visitStatement, Bind.bind, Except.bind, createConstant, createCall,
    generateInstrName, addInstruction] at h
  split at h
  · exact absurd h (by simp)
  · rename_i p heq
    obtain ⟨v, t⟩ := p
    simp only [] at h
    have hx := Except.ok.inj h
    subst hx
    refine EFrame.toSFrame (EFrame.etrans ((visitExpression_eframe n).1 _ _ _ _ heq) ?_)
    refine ⟨rfl, by simp [appendInstrAt_length], rfl, fun j hj => ?_⟩
    simp [appendInstrAt_get_ne _ _ _ _ hj]

theorem sfVar (n : Nat) (name ty : String) (ini : Option Expr) (s s' : GenState)
    (h : visitStatement (n + 1) (.var name ty ini) s = .ok s') : SFrame s s' := by
  cases ini with
  | none =>
    simp only [visitStatement, Bind.bind, Except.bind, createConstant, createAlloca,
      createStore, generateInstrName, addInstruction] at h
    have hx := Except.ok.inj h
    subst hx
    refine EFrame.toSFrame ⟨rfl, by simp [appendInstrAt_length], rfl, fun j hj => ?_⟩
    simp [appendInstrAt_get_ne _ _ _ _ hj]
  | some e =>
    simp only [visitStatement, Bind.bind, Except.bind, createAlloca, createStore,
      generateInstrName, addInstruction] at h
    split at h
    · exact absurd h (by simp)
    · rename_i p heq
      obtain ⟨v, t⟩ := p
      simp only [] at h
      have hx := Except.ok.inj h
      subst hx
      refine EFrame.toSFrame (EFrame.etrans ((visitExpression_eframe n).1 _ _ _ _ heq) ?_)
      refine ⟨rfl, by simp [appendInstrAt_length], rfl, fun j hj => ?_⟩
      simp [appendInstrAt_get_ne _ _ _ _ hj]

theorem sfConst (n : Nat) (name ty : String) (ini : Option Expr) (s s' : GenState)
    (h : visitStatement (n + 1) (.constDecl name ty ini) s = .ok s') : SFrame s s' := by
  cases ini with
  | none =>
    simp only [visitStatement, Bind.bind, Except.bind, createConstant, createAlloca,
      createStore, generateInstrName, addInstruction] at h
    have hx := Except.ok.inj h
    subst hx
    refine EFrame.toSFrame ⟨rfl, by simp [appendInstrAt_length], rfl, fun j hj => ?_⟩
    simp [appendInstrAt_get_ne _ _ _ _ hj]
  | some e =>
    simp only [visitStatement, Bind.bind, Except.bind, createAlloca, createStore,
      generateInstrName, addInstruction] at h
    split at h
    · exact absurd h (by simp)
    · rename_i p heq
      obtain ⟨v, t⟩ := p
      simp only [] at h
      have hx := Except.ok.inj h
      subst hx
      refine EFrame.toSFrame (EFrame.etrans ((visitExpression_eframe n).1 _ _ _ _ heq) ?_)
      refine ⟨rfl, by simp [appendInstrAt_length], rfl, fun j hj => ?_⟩
      simp [appendInstrAt_get_ne _ _ _ _ hj]

theorem sfRet (n : Nat) (v : Option Expr) (s s' : GenState)
    (h : visitStatement (n + 1) (.ret v) s = .ok s') : SFrame s s' := by
  cases v with
  | none =>
    simp only [visitStatement, createConstant, createRet, generateInstrName,
      addInstruction] at h
    have hx := Except.ok.inj h
    subst hx
    refine EFrame.toSFrame ⟨rfl, by simp [appendInstrAt_length], rfl, fun j hj => ?_⟩
    simp [appendInstrAt_get_ne _ _ _ _ hj]
  | some e =>
    simp only [visitStatement, Bind.bind, Except.bind, createRet, generateInstrName,
      addInstruction] at h
    split at h
    · exact absurd h (by simp)
    · rename_i p heq
      obtain ⟨v, t⟩ := p
      simp only [] at h
      have hx := Except.ok.inj h
      subst hx
      refine EFrame.toSFrame (EFrame.etrans ((visitExpression_eframe n).1 _ _ _ _ heq) ?_)
      refine ⟨rfl, by simp [appendInstrAt_length], rfl, fun j hj => ?_⟩
      simp [appendInstrAt_get_ne _ _ _ _ hj]

theorem fns_extend {s t : GenState} (new : List Function) (fn : Function)
    (hnew : t.fns = s.fns ++ new) (hc : ∀ f ∈ new, blocksClosed f = true)
    (hfn : blocksClosed fn = true) :
    ∃ nw, t.fns ++ [fn] = s.fns ++ nw ∧ ∀ f ∈ nw, blocksClosed f = true := by
  refine ⟨new ++ [fn], by rw [hnew, List.append_assoc], ?_⟩
  intro f hf
  rcases List.mem_append.mp hf with hf | hf
  · exact hc f hf
  · rw [List.mem_singleton.mp hf]; exact hfn

theorem sfFunction (n : Nat)
    (ihS : ∀ (st : Stmt) (s s' : GenState), visitStatement n st s = .ok s' → SFrame s s')
    (name : String) (ps : List (String × String)) (rt : String) (body : Stmt)
    (ia ic : Bool) (s s' : GenState)
    (h : visitStatement (n + 1) (.function name ps rt body ia ic) s = .ok s') :
    SFrame s s' := by
  simp only [visitStatement, Bind.bind, Except.bind, generateBlockName, createConstant,
    createRet, generateInstrName, addInstruction] at h
  split at h
  · exact absurd h (by simp)
  · rename_i t heq
    have hx := Except.ok.inj h
    subst hx
    have hS := ihS _ _ _ heq
    obtain ⟨hS1, hS2, hS3, hS4, new, hnew, hclosed⟩ := hS
    simp only [] at hS2 hS4 hnew
    refine ⟨le_rfl, Or.inl rfl, fun hv => hv, fun j b hj => ?_, ?_⟩
    · by_cases hc : j = s.curIdx
      · exact Or.inr (Or.inl hc)
      · exact Or.inr (Or.inr ⟨hj, hc⟩)
    · refine fns_extend new _ hnew hclosed ?_
      simp only [blocksClosed]
      refine all_endsTerm_of_get _ fun j b hb => ?_
      by_cases hjc : j = t.curIdx
      · refine appendInstrAt_closes _ _ _ ?_ b (hjc ▸ hb)
        rfl
      · rw [appendInstrAt_get_ne _ _ _ _ hjc, appendInstrAt_get_ne _ _ _ _ hjc] at hb
        rcases hS4 j b hb with hcl | hcur | ⟨hpre, hne⟩
        · exact hcl
        · exact absurd hcur hjc
        · simp only [List.getElem?_cons] at hpre
          split at hpre
          · exact absurd (by assumption) hne
          · exact absurd hpre (by simp)

theorem sfIf (n : Nat)
    (ihS : ∀ (st : Stmt) (s s' : GenState), visitStatement n st s = .ok s' → SFrame s s')
    (condition : Expr) (thenBranch : Stmt) (elseBranch : Option Stmt) (s s' : GenState)
    (h : visitStatement (n + 1) (.ifStmt condition thenBranch elseBranch) s = .ok s') :
    SFrame s s' := by
  cases elseBranch with
  | none =>
    simp only [visitStatement, Bind.bind, Except.bind, generateBlockName, addBasicBlock,
      createBr, createCondBr, addInstruction] at h
    split at h
    · exact absurd h (by simp)
    · rename_i p heq1
      obtain ⟨cond, t1⟩ := p
      simp only [] at h
      split at h
      · exact absurd h (by simp)
      · rename_i t3 heq2
        have hx := Except.ok.inj h
        subst hx
        obtain ⟨hE1, hE2, hE3, hE4⟩ := (visitExpression_eframe n).1 _ _ _ _ heq1
        obtain ⟨hS1, hS2, hS3, hS4, new1, hnew1, hclosed1⟩ := ihS _ _ _ heq2
        simp only [] at hE4 hS2 hS4 hnew1
        simp only [appendInstrAt_length, List.length_append, List.length_cons,
          List.length_nil] at hE2 hS1
        simp only [SFrame]
        refine ⟨?_, ?_, ?_, ?_, new1, ?_, hclosed1⟩
        · simp only [appendInstrAt_length]
          omega
        · omega
        · intro _
          simp only [appendInstrAt_length]
          omega
        · intro j b hj
          by_cases hj4 : j = t1.curBlocks.length + 1
          · refine Or.inl (appendInstrAt_closes _ _ _ ?_ b (hj4 ▸ hj))
            rfl
          · rw [appendInstrAt_get_ne _ _ _ _ hj4] at hj
            by_cases hj3 : j = t3.curIdx
            · refine Or.inl (appendInstrAt_closes _ _ _ ?_ b (hj3 ▸ hj))
              rfl
            · rw [appendInstrAt_get_ne _ _ _ _ hj3] at hj
              rcases hS4 j b hj with hcl | hcur | ⟨hpre, hneb⟩
              · exact Or.inl hcl
              · exact absurd hcur hj3
              · by_cases hj1 : j = t1.curIdx
                · refine Or.inl (appendInstrAt_closes _ _ _ ?_ b (hj1 ▸ hpre))
                  rfl
                · rw [appendInstrAt_get_ne _ _ _ _ hj1] at hpre
                  rcases Nat.lt_or_ge j t1.curBlocks.length with hlt | hge
                  · rw [List.append_assoc, List.append_assoc, List.getElem?_append,
                      if_pos hlt] at hpre
                    rw [hE4 j (by omega)] at hpre
                    exact Or.inr (Or.inr ⟨hpre, by omega⟩)
                  · rw [List.append_assoc, List.append_assoc, List.getElem?_append,
                      if_neg (by omega)] at hpre
                    simp only [List.cons_append, List.nil_append] at hpre
                    rcases Nat.lt_or_ge (j - t1.curBlocks.length) 3 with h3 | h3
                    · exact Or.inr (Or.inl (by omega))
                    · rw [List.getElem?_eq_none (by simp; omega)] at hpre
                      exact absurd hpre (by simp)
        · rw [hnew1, hE3]
  | some els =>
    simp only [visitStatement, Bind.bind, Except.bind, generateBlockName, addBasicBlock,
      createBr, createCondBr, addInstruction] at h
    split at h
    · exact absurd h (by simp)
    · rename_i p heq1
      obtain ⟨cond, t1⟩ := p
      simp only [] at h
      split at h
      · exact absurd h (by simp)
      · rename_i t3 heq2
        split at h
        · exact absurd h (by simp)
        · rename_i t5 heq3
          have hx := Except.ok.inj h
          subst hx
          obtain ⟨hE1, hE2, hE3, hE4⟩ := (visitExpression_eframe n).1 _ _ _ _ heq1
          obtain ⟨hS1, hS2, hS3, hS4, new1, hnew1, hclosed1⟩ := ihS _ _ _ heq2
          obtain ⟨hT1, hT2, hT3, hT4, new2, hnew2, hclosed2⟩ := ihS _ _ _ heq3
          simp only [] at hE4 hS2 hS4 hnew1 hT2 hT4 hnew2
          simp only [appendInstrAt_length, List.length_append, List.length_cons,
            List.length_nil] at hE2 hS1 hT1
          simp only [SFrame]
          refine ⟨?_, ?_, ?_, ?_, ?_⟩
          · simp only [appendInstrAt_length]
            omega
          · omega
          · intro _
            simp only [appendInstrAt_length]
            omega
          · intro j b hj
            by_cases hj5 : j = t5.curIdx
            · refine Or.inl (appendInstrAt_closes _ _ _ ?_ b (hj5 ▸ hj))
              rfl
            · rw [appendInstrAt_get_ne _ _ _ _ hj5] at hj
              rcases hT4 j b hj with hcl | hcur | ⟨hpre2, hne5⟩
              · exact Or.inl hcl
              · exact absurd hcur hj5
              · by_cases hj3 : j = t3.curIdx
                · refine Or.inl (appendInstrAt_closes _ _ _ ?_ b (hj3 ▸ hpre2))
                  rfl
                · rw [appendInstrAt_get_ne _ _ _ _ hj3] at hpre2
                  rcases hS4 j b hpre2 with hcl | hcur | ⟨hpre1, hneb⟩
                  · exact Or.inl hcl
                  · exact absurd hcur hj3
                  · by_cases hj1 : j = t1.curIdx
                    · refine Or.inl (appendInstrAt_closes _ _ _ ?_ b (hj1 ▸ hpre1))
                      rfl
                    · rw [appendInstrAt_get_ne _ _ _ _ hj1] at hpre1
                      rcases Nat.lt_or_ge j t1.curBlocks.length with hlt | hge
                      · rw [List.append_assoc, List.append_assoc, List.getElem?_append,
                          if_pos hlt] at hpre1
                        rw [hE4 j (by omega)] at hpre1
                        exact Or.inr (Or.inr ⟨hpre1, by omega⟩)
                      · rw [List.append_assoc, List.append_assoc, List.getElem?_append,
                          if_neg (by omega)] at hpre1
                        simp only [List.cons_append, List.nil_append] at hpre1
                        rcases Nat.lt_or_ge (j - t1.curBlocks.length) 3 with h3 | h3
                        · exact Or.inr (Or.inl (by omega))
                        · rw [List.getElem?_eq_none (by simp; omega)] at hpre1
                          exact absurd hpre1 (by simp)
          · refine ⟨new1 ++ new2, ?_, ?_⟩
            · simp only [hnew2, hnew1, hE3, List.append_assoc]
            · intro f hf
              rcases List.mem_append.mp hf with hf | hf
              · exact hclosed1 f hf
              · exact hclosed2 f hf

theorem sfFor (n : Nat)
    (ihS : ∀ (st : Stmt) (s s' : GenState), visitStatement n st s = .ok s' → SFrame s s')
    (ini : Option Stmt) (condition increment : Option Expr) (body : Stmt) (s s' : GenState)
    (h : visitStatement (n + 1) (.forStmt ini condition increment body) s = .ok s') :
    SFrame s s' := by
  cases ini with
  | none =>
    simp only [visitStatement, Bind.bind, Except.bind, generateBlockName, addBasicBlock,
      createBr, createCondBr, addInstruction] at h
    · cases condition with
      | none =>
        simp only [] at h
        exact absurd h (by simp)
      | some ce =>
        simp only [] at h
        split at h
        · exact absurd h (by simp)
        · rename_i p heqc
          obtain ⟨cond, tc⟩ := p
          simp only [] at h
          split at h
          · exact absurd h (by simp)
          · rename_i tb heqb
            cases increment with
            | none =>
              simp only [] at h
              exact absurd h (by simp)
            | some ie =>
              simp only [] at h
              split at h
              · exact absurd h (by simp)
              · rename_i q heqi
                obtain ⟨iv, ti⟩ := q
                simp only [] at h
                have hx := Except.ok.inj h
                subst hx
                obtain ⟨hEc1, hEc2, hEc3, hEc4⟩ := (visitExpression_eframe n).1 _ _ _ _ heqc
                obtain ⟨hSb1, hSb2, hSb3, hSb4, newb, hnewb, hclosedb⟩ := ihS _ _ _ heqb
                obtain ⟨hEi1, hEi2, hEi3, hEi4⟩ := (visitExpression_eframe n).1 _ _ _ _ heqi
                simp only [] at hEc1 hEc3 hEc4 hSb2 hSb3 hSb4 hnewb hEi1 hEi3 hEi4
                simp only [appendInstrAt_length, List.length_append, List.length_cons,
                  List.length_nil] at hEc2 hSb1 hEi2
                simp only [SFrame]
                refine ⟨?_, ?_, ?_, ?_, newb, ?_, hclosedb⟩
                · simp only [appendInstrAt_length]
                  omega
                · omega
                · intro _
                  simp only [appendInstrAt_length]
                  omega
                · intro j b hj
                  by_cases hji : j = ti.curIdx
                  · refine Or.inl (appendInstrAt_closes _ _ _ ?_ b (hji ▸ hj))
                    rfl
                  · rw [appendInstrAt_get_ne _ _ _ _ hji] at hj
                    rw [hEi4 j (by omega)] at hj
                    by_cases hjb : j = tb.curIdx
                    · refine Or.inl (appendInstrAt_closes _ _ _ ?_ b (hjb ▸ hj))
                      rfl
                    · rw [appendInstrAt_get_ne _ _ _ _ hjb] at hj
                      rcases hSb4 j b hj with hcl | hcur | ⟨hpre, hne1⟩
                      · exact Or.inl hcl
                      · exact absurd hcur hjb
                      · by_cases hjc : j = tc.curIdx
                        · refine Or.inl (appendInstrAt_closes _ _ _ ?_ b (hjc ▸ hpre))
                          rfl
                        · rw [appendInstrAt_get_ne _ _ _ _ hjc] at hpre
                          rw [hEc4 j (by omega)] at hpre
                          by_cases hj0 : j = s.curIdx
                          · refine Or.inl (appendInstrAt_closes _ _ _ ?_ b (hj0 ▸ hpre))
                            rfl
                          · rw [appendInstrAt_get_ne _ _ _ _ hj0] at hpre
                            rcases Nat.lt_or_ge j s.curBlocks.length with hlt | hge
                            · rw [List.append_assoc, List.append_assoc, List.append_assoc,
                                List.getElem?_append, if_pos hlt] at hpre
                              exact Or.inr (Or.inr ⟨hpre, hj0⟩)
                            · rw [List.append_assoc, List.append_assoc, List.append_assoc,
                                List.getElem?_append, if_neg (by omega)] at hpre
                              simp only [List.cons_append, List.nil_append] at hpre
                              rcases Nat.lt_or_ge (j - s.curBlocks.length) 4 with h4 | h4
                              · exact Or.inr (Or.inl (by omega))
                              · rw [List.getElem?_eq_none (by simp; omega)] at hpre
                                exact absurd hpre (by simp)
                · simp only [hEi3, hnewb, hEc3]
  | some st0 =>
    simp only [visitStatement, Bind.bind, Except.bind, generateBlockName, addBasicBlock,
      createBr, createCondBr, addInstruction] at h
    split at h
    · exact absurd h (by simp)
    · rename_i t0 heq0
      refine SFrame.strans (ihS _ _ _ heq0) ?_
      cases condition with
      | none =>
        simp only [] at h
        exact absurd h (by simp)
      | some ce =>
        simp only [] at h
        split at h
        · exact absurd h (by simp)
        · rename_i p heqc
          obtain ⟨cond, tc⟩ := p
          simp only [] at h
          split at h
          · exact absurd h (by simp)
          · rename_i tb heqb
            cases increment with
            | none =>
              simp only [] at h
              exact absurd h (by simp)
            | some ie =>
              simp only [] at h
              split at h
              · exact absurd h (by simp)
              · rename_i q heqi
                obtain ⟨iv, ti⟩ := q
                simp only [] at h
                have hx := Except.ok.inj h
                subst hx
                obtain ⟨hEc1, hEc2, hEc3, hEc4⟩ := (visitExpression_eframe n).1 _ _ _ _ heqc
                obtain ⟨hSb1, hSb2, hSb3, hSb4, newb, hnewb, hclosedb⟩ := ihS _ _ _ heqb
                obtain ⟨hEi1, hEi2, hEi3, hEi4⟩ := (visitExpression_eframe n).1 _ _ _ _ heqi
                simp only [] at hEc1 hEc3 hEc4 hSb2 hSb3 hSb4 hnewb hEi1 hEi3 hEi4
                simp only [appendInstrAt_length, List.length_append, List.length_cons,
                  List.length_nil] at hEc2 hSb1 hEi2
                simp only [SFrame]
                refine ⟨?_, ?_, ?_, ?_, newb, ?_, hclosedb⟩
                · simp only [appendInstrAt_length]
                  omega
                · omega
                · intro _
                  simp only [appendInstrAt_length]
                  omega
                · intro j b hj
                  by_cases hji : j = ti.curIdx
                  · refine Or.inl (appendInstrAt_closes _ _ _ ?_ b (hji ▸ hj))
                    rfl
                  · rw [appendInstrAt_get_ne _ _ _ _ hji] at hj
                    rw [hEi4 j (by omega)] at hj
                    by_cases hjb : j = tb.curIdx
                    · refine Or.inl (appendInstrAt_closes _ _ _ ?_ b (hjb ▸ hj))
                      rfl
                    · rw [appendInstrAt_get_ne _ _ _ _ hjb] at hj
                      rcases hSb4 j b hj with hcl | hcur | ⟨hpre, hne1⟩
                      · exact Or.inl hcl
                      · exact absurd hcur hjb
                      · by_cases hjc : j = tc.curIdx
                        · refine Or.inl (appendInstrAt_closes _ _ _ ?_ b (hjc ▸ hpre))
                          rfl
                        · rw [appendInstrAt_get_ne _ _ _ _ hjc] at hpre
                          rw [hEc4 j (by omega)] at hpre
                          by_cases hj0 : j = t0.curIdx
                          · refine Or.inl (appendInstrAt_closes _ _ _ ?_ b (hj0 ▸ hpre))
                            rfl
                          · rw [appendInstrAt_get_ne _ _ _ _ hj0] at hpre
                            rcases Nat.lt_or_ge j t0.curBlocks.length with hlt | hge
                            · rw [List.append_assoc, List.append_assoc, List.append_assoc,
                                List.getElem?_append, if_pos hlt] at hpre
                              exact Or.inr (Or.inr ⟨hpre, hj0⟩)
                            · rw [List.append_assoc, List.append_assoc, List.append_assoc,
                                List.getElem?_append, if_neg (by omega)] at hpre
                              simp only [List.cons_append, List.nil_append] at hpre
                              rcases Nat.lt_or_ge (j - t0.curBlocks.length) 4 with h4 | h4
                              · exact Or.inr (Or.inl (by omega))
                              · rw [List.getElem?_eq_none (by simp; omega)] at hpre
                                exact absurd hpre (by simp)
                · simp only [hEi3, hnewb, hEc3]

theorem visitStatement_sframe :
    ∀ fuel : Nat,
      (∀ (st : Stmt) (s s' : GenState), visitStatement fuel st s = .ok s' → SFrame s s') ∧
      (∀ (l : List Stmt) (s s' : GenState), visitStatements fuel l s = .ok s' → SFrame s s') := by
  intro fuel
  induction fuel with
  | zero =>
    constructor
    · intro st s s' h
      simp [visitStatement] at h
    · intro l s s' h
      simp [visitStatements] at h
  | succ n ih =>
    constructor
    · intro st s s' h
      cases st with
      | expression e => exact sfExpression n e s s' h
      | print e => exact sfPrint n e s s' h
      | var name ty ini => exact sfVar n name ty ini s s' h
      | constDecl name ty ini => exact sfConst n name ty ini s s' h
      | block stmts =>
        simp only [visitStatement] at h
        exact ih.2 _ _ _ h
      | ifStmt c tb eb => exact sfIf n ih.1 c tb eb s s' h
      | whileStmt c b =>
        exact sfWhile n ih.1
          (fun e s r s' => (visitExpression_eframe n).1 e s r s') c b s s' h
      | forStmt i c inc b => exact sfFor n ih.1 i c inc b s s' h
      | ret v => exact sfRet n v s s' h
      | function nm ps rt b ia ic => exact sfFunction n ih.1 nm ps rt b ia ic s s' h
      | classStmt nm sup ms =>
        simp only [visitStatement] at h
        obtain rfl := Except.ok.inj h
        exact SFrame.srefl s
      | structStmt nm fs =>
        simp only [visitStatement] at h
        obtain rfl := Except.ok.inj h
        exact SFrame.srefl s
      | tryStmt b cs f =>
        simp only [visitStatement] at h
        obtain rfl := Except.ok.inj h
        exact SFrame.srefl s
      | catchStmt nm ty b =>
        simp only [visitStatement] at h
        obtain rfl := Except.ok.inj h
        exact SFrame.srefl s
      | throwStmt e =>
        simp only [visitStatement] at h
        obtain rfl := Except.ok.inj h
        exact SFrame.srefl s
      | process pid b =>
        simp only [visitStatement] at h
        obtain rfl := Except.ok.inj h
        exact SFrame.srefl s
    · intro l s s' h
      cases l with
      | nil =>
        simp only [visitStatements] at h
        obtain rfl := Except.ok.inj h
        exact SFrame.srefl s
      | cons st rest =>
        simp only [visitStatements, Bind.bind, Except.bind] at h
        split at h
        · exact absurd h (by simp)
        · rename_i t heq
          exact SFrame.strans (ih.1 _ _ _ heq) (ih.2 _ _ _ h)

/-- C1: every basic block of every function of a module produced by a
successful run of CodeGenerator::generate is nonempty and ends in a
terminator instruction (Br, CondBr or Ret): all blocks of the nested
functions emitted along the way and of the synthetic main function are
closed by the time the module is assembled. -/
theorem generate_blocks_terminated (statements : List Stmt) (m : Module)
    (h : generate statements = .ok m) : m.functions.all blocksClosed = true := by
  simp only [generate, Bind.bind, Except.bind, generateBlockName, addBasicBlock,
    createConstant, createRet, generateInstrName, addInstruction] at h
  split at h
  · exact absurd h (by simp)
  · rename_i t heq
    obtain rfl := Except.ok.inj h
    obtain ⟨hS1, hS2, hS3, hS4, new, hnew, hclosed⟩ := (visitStatement_sframe _).2 _ _ _ heq
    simp only [List.nil_append] at hnew
    rw [List.all_eq_true]
    intro f hf
    simp only [] at hf
    rcases List.mem_append.mp hf with hf | hf
    · exact hclosed f (hnew ▸ hf)
    · rw [List.mem_singleton.mp hf]
      simp only [blocksClosed]
      refine all_endsTerm_of_get _ fun j b hb => ?_
      by_cases hjc : j = t.curIdx
      · refine appendInstrAt_closes _ _ _ ?_ b (hjc ▸ hb)
        rfl
      · rw [appendInstrAt_get_ne _ _ _ _ hjc, appendInstrAt_get_ne _ _ _ _ hjc] at hb
        rcases hS4 j b hb with hcl | hcur | ⟨hpre, hne⟩
        · exact hcl
        · exact absurd hcur hjc
        · simp only [List.nil_append, List.getElem?_cons] at hpre
          split at hpre
          · exact absurd (by assumption) hne
          · exact absurd hpre (by simp)

/-- Witness: the theorem applied to the empty program, whose module is
computed concretely. -/
theorem generate_blocks_terminated_witness :
    generate [] = .ok mEmpty ∧ mEmpty.functions.all blocksClosed = true :=
  ⟨by decide, generate_blocks_terminated [] mEmpty (by decide)⟩



/-- C5: the claim says a slash starts a token unless followed by another
slash or a star; in the code the peek-without-advance slip makes every
slash at a scan start eat the rest of the line, so 1/2 loses the DIVIDE
token and the 2, a block comment a /* b */ c is skipped only to the end
of the line and loses the c, while the same program with the comment
removed keeps both identifiers. -/
theorem lexer_comment_handling_bug :
    (lexTokens 2 (mkLexer "1/2")).map Token.type = [.INTEGER, .END_OF_FILE] ∧
    (lexTokens 2 (mkLexer "a /* b */ c")).map (fun t => (t.type, t.lexeme)) =
      [(.IDENTIFIER, "a"), (.END_OF_FILE, "")] ∧
    (lexTokens 3 (mkLexer "a  c")).map (fun t => (t.type, t.lexeme)) =
      [(.IDENTIFIER, "a"), (.IDENTIFIER, "c"), (.END_OF_FILE, "")] := by decide

/-- C9 (amended): on every lexer state with no pending pushback,
ungetToken followed by getNextToken returns exactly the pushed token and
restores the lexer state, leaving the whole subsequent token stream
unchanged; the overwrite counterexample below shows the original claim
fails on states that already hold a pushback. -/
theorem ungetToken_roundTrip (l : Lexer) (t : Token) (h : l.ungotToken = none) :
    Lexer.getNextToken (Lexer.ungetToken t l) = (t, l) ∧
    ∀ n, lexTokens n (Lexer.getNextToken (Lexer.ungetToken t l)).2 = lexTokens n l := by
  obtain ⟨src, pos, line, col, ug⟩ := l
  simp only [Lexer.ungotToken] at h
  subst h
  exact ⟨rfl, fun n => rfl⟩

theorem ungetToken_roundTrip_witness :
    Lexer.getNextToken (Lexer.ungetToken (Token.mk .INTEGER "7" 1 1) (mkLexer "ab")) =
      (Token.mk .INTEGER "7" 1 1, mkLexer "ab") :=
  (ungetToken_roundTrip (mkLexer "ab") (Token.mk .INTEGER "7" 1 1) rfl).1

theorem ungetToken_overwrite_counterexample :
    (Lexer.getNextToken (Lexer.ungetToken (Token.mk .INTEGER "7" 1 1) lexC9)).1 =
      Token.mk .INTEGER "7" 1 1 ∧
    lexTokens 1 (Lexer.getNextToken (Lexer.ungetToken (Token.mk .INTEGER "7" 1 1) lexC9)).2 ≠
      lexTokens 1 lexC9 := by decide

/-- C8: Parser::consume with a mismatched token type appends exactly one
diagnostic of the form Error at line L, column C: message, built from the
current token, sets hadError and returns the current token without
advancing; with a matching type it returns the current token and
advances. -/
theorem consume_spec (p : Parser) (ty : TokenType) (message : String) :
    (p.currentToken.type ≠ ty →
      p.consume ty message =
        (p.currentToken,
         { p with hadError := true,
                  errors := p.errors ++
                    ["Error at line " ++ toString p.currentToken.line ++ ", column " ++
                      toString p.currentToken.column ++ ": " ++ message] })) ∧
    (p.currentToken.type = ty → p.consume ty message = (p.currentToken, p.advance)) := by
  constructor
  · intro h
    simp [Parser.consume, Parser.check, Parser.error, h]
  · intro h
    simp [Parser.consume, Parser.check, h]

theorem consume_spec_witness :
    (Parser.init "x").consume .SEMICOLON "Expect expression." =
      ((Parser.init "x").currentToken, (Parser.init "x").error "Expect expression.") ∧
    (Parser.init "x").consume .IDENTIFIER "Expect variable name." =
      ((Parser.init "x").currentToken, (Parser.init "x").advance) :=
  ⟨(consume_spec (Parser.init "x") .SEMICOLON "Expect expression.").1 (by decide),
   (consume_spec (Parser.init "x") .IDENTIFIER "Expect variable name.").2 (by decide)⟩

/-- C2: contrary to the claim that the canonical while-loop program
analyzes cleanly, the semantic analyzer reports hadError with exactly
four diagnostics on let x:int=1; while(x<3){ println(x); x=x+1; }, the
first being the int/number type mismatch on the declaration. -/
theorem analyze_while_program_reports_errors :
    (analyze progC2 SemanticAnalyzer.initState).map
      (fun a => (a.hadError, a.errors.length)) = some (true, 4) ∧
    ((analyze progC2 SemanticAnalyzer.initState).bind fun a => a.errors[0]?) =
      some ("Semantic error: Type mismatch: expected " ++ tick ++ "int" ++ tick ++ ", got " ++
        tick ++ "number" ++ tick ++ ".") := by decide

/-- C3: the comparison operators are claimed to yield bool on number
operands; the duplicated greater-than disjunct in analyzeBinaryExpr makes
the greater-or-equal operator fall through to the left operand type
number, while the other five comparison operators do yield bool. -/
theorem analyzeBinaryExpr_ge_bug :
    (analyzeBinaryExpr 9 (.literal "1" "number") ">=" (.literal "2" "number")
      SemanticAnalyzer.initState).map Prod.fst = some "number" ∧
    (∀ op ∈ (["==", "!=", "<", "<=", ">"] : List String),
      (analyzeBinaryExpr 9 (.literal "1" "number") op (.literal "2" "number")
        SemanticAnalyzer.initState).map Prod.fst = some "bool") := by decide

/-- C4: a For statement with a null condition or a null increment child
(the parser builds exactly that for a for with empty header slots) makes
visitForStmt dereference a null pointer, modelled as Fault.nullDeref,
instead of the always-true/no-op lowering the claim describes; with both
children present the same loop lowers successfully. -/
theorem visitForStmt_null_children_fault :
    generate [.forStmt none none none (.block [])] = .error .nullDeref ∧
    generate [.forStmt none (some (.binary (.identifier "i") "<" (.literal "3" "number"))) none
      (.block [])] = .error .nullDeref ∧
    (generate [.forStmt none (some (.binary (.identifier "i") "<" (.literal "3" "number")))
      (some (.assign "i" (.binary (.identifier "i") "+" (.literal "1" "number"))))
      (.block [])]).toOption.isSome = true := by decide

/-- Optimizer helper: no instruction is ever classified dead. -/
theorem isDeadCode_eq_false (i : Instruction) : isDeadCode i = false := by
  cases hk : i.kind <;> simp [isDeadCode, hk]

theorem constantFolding_eq (b : BasicBlock) : constantFolding b = b := by
  unfold constantFolding
  generalize b.instructions = l
  induction l generalizing b with
  | nil => rfl
  | cons i l ih =>
    rw [List.foldl_cons]
    have hstep : (match i.kind with
        | InstrKind.binaryInst _ _ _ _ =>
          if tryMergeConstants i then replaceInstructionUse i.name i.name b else b
        | _ => b) = b := by
      cases i.kind <;> simp [tryMergeConstants]
    rw [hstep]
    exact ih b

theorem deadCodeElimination_eq (b : BasicBlock) : deadCodeElimination b = b := by
  simp [deadCodeElimination, isDeadCode_eq_false]

theorem optimizeBlock_eq (b : BasicBlock) : optimizeBlock b = b := by
  simp [optimizeBlock, simplifyExpressions, constantFolding_eq, deadCodeElimination_eq]

theorem optimizeFunction_eq (f : Function) : optimizeFunction f = f := by
  have h : optimizeBlock = fun b => b := funext optimizeBlock_eq
  simp [optimizeFunction, h]

theorem optimize_eq (m : Module) : optimize m = m := by
  have h : optimizeFunction = fun f => f := funext optimizeFunction_eq
  simp [optimize, h]

/-- C6: Optimizer::optimize is the identity on every module (constant
merging is stubbed to false, expression simplification rewrites nothing
and no instruction is classified dead), so running it once and running it
twice print byte-identical IR. -/
theorem optimize_noop_idempotent (m : Module) :
    optimize m = m ∧ Module.render (optimize (optimize m)) = Module.render (optimize m) := by
  have h := optimize_eq m
  exact ⟨h, by simp only [h]⟩

/-- C10: lowering an identifier with no variableMap entry emits exactly
one Const INT32 0 instruction into the current block and returns its
fresh instruction name; no Load is emitted and lowering succeeds. -/
theorem visitIdentifierExpr_unbound (fuel : Nat) (s : GenState) (name : String)
    (h : mapFind s.variableMap name = none) :
    visitExpression (fuel + 1) (.identifier name) s =
      .ok ("%instr" ++ toString s.instrCount,
        { s with instrCount := s.instrCount + 1,
                 curBlocks := appendInstrAt s.curBlocks s.curIdx
                   (Instruction.mk ("%instr" ++ toString s.instrCount)
                     (.constInst .INT32 "0")) }) := by
  simp [visitExpression, h, createConstant, generateInstrName, addInstruction]

theorem visitIdentifierExpr_unbound_witness :
    visitExpression 1 (.identifier "x")
      (GenState.mk [] "main" .INT32 [BasicBlock.mk "block0" []] 0 0 1 []) =
      .ok ("%instr" ++ toString (GenState.mk [] "main" .INT32 [BasicBlock.mk "block0" []]
            0 0 1 [] : GenState).instrCount,
        { (GenState.mk [] "main" .INT32 [BasicBlock.mk "block0" []] 0 0 1 [] : GenState) with
          instrCount := 1,
          curBlocks := appendInstrAt [BasicBlock.mk "block0" []] 0
            (Instruction.mk ("%instr" ++ toString (0 : Nat)) (.constInst .INT32 "0")) }) :=
  visitIdentifierExpr_unbound 0 (GenState.mk [] "main" .INT32 [BasicBlock.mk "block0" []] 0 0 1 [])
    "x" (by decide)

/-- C7 counterexample: the lowered if/else program has 4 blocks in
total, that is 3 beyond the entry block, not the 4 beyond entry the claim
counts. -/
theorem if_lowering_block_count_counterexample :
    (generate progC7).toOption.map (fun m => m.functions.map fun f => f.basicBlocks.length) =
      some [4] ∧
    ¬((generate progC7).toOption.map
        (fun m => m.functions.map fun f => f.basicBlocks.length) = some [5]) := by decide

/-- C7 (amended): lowering if (x>0) with a then and an else branch
produces exactly three blocks beyond entry; the entry block ends in a
CondBr to the then and else blocks and both branches end in a Br to the
merge block. -/
theorem if_lowering_structure :
    (generate progC7).toOption.map (fun m => m.functions.map fun f => f.basicBlocks.map fun b =>
      (b.name, b.instructions.getLast?.map Instruction.kind)) =
    some [[("block0", some (.condBrInst "%instr2" "block1" "block2")),
           ("block1", some (.brInst "block3")),
           ("block2", some (.brInst "block3")),
           ("block3", some (.retInst .INT32 "%instr9"))]] := by decide

/-- C1 counterexample: for the single statement return 1 the entry
block of main carries two terminators (the lowered Ret and the implicit
trailing Ret), so the stronger reading of the claim, one terminator per
block placed only at the end, fails. -/
theorem return_double_terminator_counterexample :
    (generate progRet).toOption.map (fun m => m.functions.map fun f => f.basicBlocks.map fun b =>
      (b.instructions.filter isTerminator).length) = some [[2]] ∧
    ([[2]] : List (List Nat)) ≠ [[1]] := by decide


end Nexus
